import Mathlib

/-!
Verification development for the `ape_my` mock-API server (Go).

The definitions below are a shallow embedding of the route-and-query engine:
the in-memory store (`internal/storage/storage.go`), the schema loader and
route builder (`internal/schema`), the request-time handlers
(`internal/server`), and the response templater
(`internal/server/response.go`).

Modelling conventions:
* Go's `map[string]interface{}` values (decoded JSON) are the inductive
  `Value`; maps are association lists in iteration order.  Go map iteration
  order is unspecified; theorems that depend on order quantify over
  permutations instead.
* Go `float64` is modelled as the rational number it denotes (`Rat`).
  Equality of `float64` corresponds to equality of the denoted rationals.
* Go `int` is modelled as `Int` (for request-supplied limit/offset) or `Nat`
  (for the ID counter, which is only ever incremented from 0 or raised to a
  parsed digit-string value); two's-complement wraparound is not modelled.
* A panicking operation (an unchecked type assertion) is modelled as the
  `none` case of an `Option` result.
* `sort.Strings` compares byte-wise over UTF-8; for valid UTF-8 this is
  exactly code-point-lexicographic order, embedded here as `lexLe` over
  `String.data`.
-/

namespace ApeMy

/-- A decoded JSON value (`interface{}` holding `nil`, `bool`, `float64`,
`string`, `[]interface{}` or `map[string]interface{}`).  Object fields are
kept as an association list in iteration order. -/
inductive Value where
  | vNull
  | vBool (b : Bool)
  | vNum (q : Rat)
  | vStr (s : String)
  | vArr (elems : List Value)
  | vObj (fields : List (String × Value))

/-- An entity record: `map[string]interface{}` as an association list. -/
abbrev Record := List (String × Value)

/-- An entity collection: `map[string]map[string]interface{}` (ID to record). -/
abbrev Collection := List (String × Record)

/-! ### Byte-lexicographic string order (`sort.Strings`) -/

/-- Lexicographic less-or-equal on code-point lists; for valid UTF-8 this is
the same order as Go's byte-wise `<=` used by `sort.Strings`. -/
def lexLe : List Char → List Char → Bool
  | [], _ => true
  | _ :: _, [] => false
  | a :: as, b :: bs =>
    if a.toNat < b.toNat then true
    else if b.toNat < a.toNat then false
    else lexLe as bs

/-- Go string comparison (`s <= t` byte-wise), as used by `sort.Strings`. -/
def sLe (a b : String) : Prop := lexLe a.data b.data = true

instance : DecidableRel sLe := fun a b => by unfold sLe; infer_instance

/-! ### `strconv` and `fmt` models -/

/-- Leading decimal digits of a character list, and the rest. -/
def takeDigitChars : List Char → List Char × List Char
  | c :: cs =>
    if 48 ≤ c.toNat ∧ c.toNat ≤ 57 then
      let (ds, r) := takeDigitChars cs
      (c :: ds, r)
    else ([], c :: cs)
  | [] => ([], [])

/-- Numeric value of a list of decimal digit characters (most significant first). -/
def digitsVal (ds : List Char) : Nat :=
  ds.foldl (fun a c => a * 10 + (c.toNat - 48)) 0

/-- Model of `strconv.ParseFloat(s, 64)` on plain decimal syntax
(optional sign, digits, optional fraction, optional exponent), returning the
denoted rational.  `Inf`/`NaN`/hex-float/underscore inputs, which no theorem
below depends on, are modelled as parse failures, and the rounding of the
decimal to the nearest `float64` is not modelled. -/
def parseGoFloat (s : String) : Option Rat :=
  let cs := s.data
  let (neg, cs) :=
    match cs with
    | '-' :: r => (true, r)
    | '+' :: r => (false, r)
    | r => (false, r)
  let (ip, cs) := takeDigitChars cs
  let (fp, cs) :=
    match cs with
    | '.' :: r =>
      let (f, r') := takeDigitChars r
      (some f, r')
    | r => (none, r)
  if ip.isEmpty ∧ (fp.getD []).isEmpty then none
  else
    let mant : Rat :=
      (digitsVal ip : Rat) + (digitsVal (fp.getD []) : Rat) / (10 : Rat) ^ (fp.getD []).length
    let signed : Rat := if neg then -mant else mant
    match cs with
    | [] => some signed
    | c :: r =>
      if c = 'e' ∨ c = 'E' then
        let (eneg, r₂) :=
          match r with
          | '-' :: t => (true, t)
          | '+' :: t => (false, t)
          | t => (false, t)
        let (ed, r₃) := takeDigitChars r₂
        if ed.isEmpty ∨ ¬ r₃.isEmpty then none
        else
          let e := digitsVal ed
          some (if eneg then signed / (10 : Rat) ^ e else signed * (10 : Rat) ^ e)
      else none

/-- Model of `strconv.ParseBool`, which accepts exactly these twelve strings. -/
def parseGoBool (s : String) : Option Bool :=
  if s = "1" ∨ s = "t" ∨ s = "T" ∨ s = "true" ∨ s = "TRUE" ∨ s = "True" then some true
  else if s = "0" ∨ s = "f" ∨ s = "F" ∨ s = "false" ∨ s = "FALSE" ∨ s = "False" then some false
  else none

/-- Two's-complement wraparound of Go's 64-bit signed `int` arithmetic:
the value of `x` reduced into `[-2^63, 2^63)`. -/
def wrap64 (x : Int) : Int := (x + 2 ^ 63) % 2 ^ 64 - 2 ^ 63

/-- Two's-complement truncation of an `int` to a 32-bit `rune`. -/
def wrap32 (x : Int) : Int := (x + 2 ^ 31) % 2 ^ 32 - 2 ^ 31

/-- Go's `string(r)` for a rune value: the character itself when `r` is a
valid code point, `U+FFFD` otherwise. -/
def stringOfRune (r : Int) : String :=
  if (0 ≤ r ∧ r < 0xD800) ∨ (0xDFFF < r ∧ r ≤ 0x10FFFF) then
    String.mk [Char.ofNat r.toNat]
  else String.mk [Char.ofNat 0xFFFD]

/-- The decimal digit character for `n < 10`. -/
def digitChar (n : Nat) : Char := Char.ofNat (48 + n)

/-- The digit-accumulation loop of `formatID` (`for counter > 0 { ... }`),
with a fuel argument bounding the iteration count (`c` itself suffices, since
`c` strictly shrinks under division by 10). -/
def formatIDLoop : Nat → Nat → List Char → List Char
  | 0, _, acc => acc
  | fuel + 1, c, acc =>
    if c = 0 then acc
    else formatIDLoop fuel (c / 10) (digitChar (c % 10) :: acc)

/-- `formatID` from `storage.go`: the counter (a Go `int`) rendered via
`string(rune('0' + counter))` when below 10 — including the rune
conversion's 32-bit truncation, reached only on wrapped counters — and the
digit loop otherwise (positive there, so `Nat` division/modulo coincide
with Go's). -/
def formatID (counter : Int) : String :=
  if counter < 10 then stringOfRune (wrap32 (48 + counter))
  else String.mk (formatIDLoop counter.toNat counter.toNat [])

/-- Decimal rendering of a natural number (digit loop; `0` prints `"0"`). -/
def natToDecimal (n : Nat) : String :=
  if n = 0 then "0" else String.mk (formatIDLoop n n [])

/-- Decimal rendering of an integer. -/
def intToDecimal (i : Int) : String :=
  if i < 0 then "-" ++ natToDecimal i.natAbs else natToDecimal i.natAbs

/-- Model of `fmt`'s `%v` for a `float64`.  Go prints the shortest decimal
that round-trips; integral values are rendered exactly here, and the
non-integral rendering is a placeholder (no theorem below depends on it:
the store's filter comparison handles numbers in their own branch). -/
def formatGoFloat (q : Rat) : String :=
  if q.den = 1 then intToDecimal q.num
  else intToDecimal q.num ++ "/" ++ natToDecimal q.den

mutual
/-- Model of `fmt.Sprintf("%v", x)` for decoded JSON values: a nil interface
prints `<nil>`, booleans `true`/`false`, strings verbatim, slices
space-separated in brackets, maps as `map[k:v ...]`.  (Go's `fmt` sorts map
keys; fields are rendered here in list order, an abstraction no theorem
depends on.) -/
def formatValue : Value → String
  | .vNull => "<nil>"
  | .vBool b => if b then "true" else "false"
  | .vNum q => formatGoFloat q
  | .vStr s => s
  | .vArr es => "[" ++ String.intercalate " " (formatValueList es) ++ "]"
  | .vObj fs => "map[" ++ String.intercalate " " (formatFieldList fs) ++ "]"

/-- `%v` of the elements of a slice. -/
def formatValueList : List Value → List String
  | [] => []
  | v :: vs => formatValue v :: formatValueList vs

/-- `%v` of the `key:value` members of a map. -/
def formatFieldList : List (String × Value) → List String
  | [] => []
  | (k, v) :: fs => (k ++ ":" ++ formatValue v) :: formatFieldList fs
end

/-! ### Association-list operations (Go map reads and writes) -/

/-- Go map assignment `m[k] = v`: replace the entry if the key is present,
append it otherwise. -/
def setAssoc {α : Type} : List (String × α) → String → α → List (String × α)
  | [], k, v => [(k, v)]
  | (k', v') :: rest, k, v =>
    if k' = k then (k, v) :: rest else (k', v') :: setAssoc rest k v

/-- Go map deletion `delete(m, k)`: remove the entry for the key. -/
def eraseAssoc {α : Type} : List (String × α) → String → List (String × α)
  | [], _ => []
  | (k', v') :: rest, k =>
    if k' = k then rest else (k', v') :: eraseAssoc rest k

/-! ### `matchesFilters` (storage.go) -/

/-- One key of `matchesFilters`: the stored value must exist and equal the
filter string under coercion chosen by the stored value's runtime type
(the `switch entityValue.(type)` in the source): strings compare exactly,
`float64` against the parsed filter, `bool` against the parsed filter, and
everything else (including nil) via its `%v` string form. -/
def matchesFilter (entity : Record) (key filterValue : String) : Bool :=
  match List.lookup key entity with
  | none => false
  | some (Value.vStr s) => s = filterValue
  | some (Value.vNum q) =>
    match parseGoFloat filterValue with
    | none => false
    | some f => q = f
  | some (Value.vBool b) =>
    match parseGoBool filterValue with
    | none => false
    | some fb => b = fb
  | some v => formatValue v = filterValue

/-- `matchesFilters` from `storage.go`: AND over all filter keys. -/
def matchesFilters (entity : Record) (filters : List (String × String)) : Bool :=
  filters.all fun kv => matchesFilter entity kv.1 kv.2

/-! ### The in-memory store -/

/-- Errors returned by store operations (`ErrNotFound`,
`ErrEntityTypeNotFound`). -/
inductive StoreErr where
  | notFound
  | entityTypeNotFound
deriving DecidableEq

/-- `InMemoryStore`: entity data and the per-type ID counter (a Go `int`,
modelled as an `Int` kept in `[-2^63, 2^63)` by wrapping arithmetic).  A
missing entry in `data` models a nil Go map (uninitialized entity type). -/
structure Store where
  data : List (String × Collection)
  counter : List (String × Int)

/-- The store before `Initialize`. -/
def emptyStore : Store := ⟨[], []⟩

/-- Reading `s.counter[entityType]`: Go map reads default to 0. -/
def counterOf (st : Store) (ty : String) : Int :=
  (List.lookup ty st.counter).getD 0

/-- `Initialize`: create an empty (non-nil) collection and a zero counter for
each listed entity type, not overwriting existing ones.  (The source method
is named `Initialize`.) -/
def initTypes (st : Store) (tys : List String) : Store :=
  tys.foldl
    (fun s ty =>
      let s1 : Store :=
        match List.lookup ty s.data with
        | none => ⟨setAssoc s.data ty [], s.counter⟩
        | some _ => s
      match List.lookup ty s1.counter with
      | none => ⟨s1.data, setAssoc s1.counter ty 0⟩
      | some _ => s1)
    st

/-- `Create`: unknown type errors; a present non-nil `id` is taken through an
unchecked string type assertion (`none` models the panic when it is not a
string); otherwise the counter is incremented (`s.counter[entityType]++`,
wrapping like Go's `int`) and formatted into the new ID, which is also
written into the record.  `copyMap` is the identity in this value-level
model. -/
def create (st : Store) (ty : String) (data : Record) :
    Option (Except StoreErr (String × Store)) :=
  match List.lookup ty st.data with
  | none => some (Except.error StoreErr.entityTypeNotFound)
  | some coll =>
    match List.lookup "id" data with
    | some Value.vNull =>
      let c := wrap64 (counterOf st ty + 1)
      let id := formatID c
      let data' := setAssoc data "id" (Value.vStr id)
      some (Except.ok (id,
        ⟨setAssoc st.data ty (setAssoc coll id data'), setAssoc st.counter ty c⟩))
    | some (Value.vStr s) =>
      some (Except.ok (s, ⟨setAssoc st.data ty (setAssoc coll s data), st.counter⟩))
    | some _ => none
    | none =>
      let c := wrap64 (counterOf st ty + 1)
      let id := formatID c
      let data' := setAssoc data "id" (Value.vStr id)
      some (Except.ok (id,
        ⟨setAssoc st.data ty (setAssoc coll id data'), setAssoc st.counter ty c⟩))

/-- `Get`: unknown type, then unknown ID, then a copy of the record. -/
def get (st : Store) (ty id : String) : Except StoreErr Record :=
  match List.lookup ty st.data with
  | none => Except.error StoreErr.entityTypeNotFound
  | some coll =>
    match List.lookup id coll with
    | none => Except.error StoreErr.notFound
    | some e => Except.ok e

/-- `Update`: full replace of an existing record, forcing `data["id"] = id`. -/
def update (st : Store) (ty id : String) (data : Record) : Except StoreErr Store :=
  match List.lookup ty st.data with
  | none => Except.error StoreErr.entityTypeNotFound
  | some coll =>
    match List.lookup id coll with
    | none => Except.error StoreErr.notFound
    | some _ =>
      let data' := setAssoc data "id" (Value.vStr id)
      Except.ok ⟨setAssoc st.data ty (setAssoc coll id data'), st.counter⟩

/-- `Patch`: merge the given keys into the existing record, except `id`. -/
def patch (st : Store) (ty id : String) (data : Record) : Except StoreErr Store :=
  match List.lookup ty st.data with
  | none => Except.error StoreErr.entityTypeNotFound
  | some coll =>
    match List.lookup id coll with
    | none => Except.error StoreErr.notFound
    | some entity =>
      let entity' := data.foldl (fun e kv => if kv.1 = "id" then e else setAssoc e kv.1 kv.2) entity
      Except.ok ⟨setAssoc st.data ty (setAssoc coll id entity'), st.counter⟩

/-- `Delete`: remove an existing record. -/
def delete (st : Store) (ty id : String) : Except StoreErr Store :=
  match List.lookup ty st.data with
  | none => Except.error StoreErr.entityTypeNotFound
  | some coll =>
    match List.lookup id coll with
    | none => Except.error StoreErr.notFound
    | some _ => Except.ok ⟨setAssoc st.data ty (eraseAssoc coll id), st.counter⟩

/-- `parseIDNumber`'s digit loop: `num = num*10 + int(ch-'0')`, each
operation wrapping like Go's 64-bit `int`; returns 0 on the first non-digit
character. -/
def parseDigitsLoop : List Char → Int → Int
  | [], num => num
  | c :: cs, num =>
    if 48 ≤ c.toNat ∧ c.toNat ≤ 57 then
      parseDigitsLoop cs (wrap64 (wrap64 (num * 10) + ((c.toNat : Int) - 48)))
    else 0

/-- `parseIDNumber` from `storage.go`: the `int` value of a purely decimal
ID string, wrapping on 64-bit overflow; 0 for non-numeric IDs (the
single-byte fast path of the source returns the same value as the loop and
is kept as the single-character case). -/
def parseIDNumber (id : String) : Int :=
  match id.data with
  | [c] =>
    if 48 ≤ c.toNat ∧ c.toNat ≤ 57 then (c.toNat : Int) - 48 else parseDigitsLoop [c] 0
  | cs => parseDigitsLoop cs 0

/-- The mathematical decimal value of an all-digit ID string — the
"numeric ID" the claims compare — unbounded, unlike the source's wrapped
`parseIDNumber`. -/
def decimalValue (id : String) : Option Nat :=
  if id.data ≠ [] ∧ ∀ c ∈ id.data, 48 ≤ c.toNat ∧ c.toNat ≤ 57 then
    some (digitsVal id.data)
  else none

/-- The per-entity loop of `Seed`: store each record that carries a string
`id`, skipping the rest, and raise the counter to any higher parsed ID. -/
def seedLoop : Collection → Int → List Record → Collection × Int
  | coll, ctr, [] => (coll, ctr)
  | coll, ctr, e :: es =>
    match List.lookup "id" e with
    | some (Value.vStr s) =>
      let ctr' := if parseIDNumber s > ctr then parseIDNumber s else ctr
      seedLoop (setAssoc coll s e) ctr' es
    | some _ => seedLoop coll ctr es
    | none => seedLoop coll ctr es

/-- `Seed` from `storage.go`. -/
def seed (st : Store) (ty : String) (entities : List Record) : Except StoreErr Store :=
  match List.lookup ty st.data with
  | none => Except.error StoreErr.entityTypeNotFound
  | some coll =>
    let (coll', ctr') := seedLoop coll (counterOf st ty) entities
    Except.ok ⟨setAssoc st.data ty coll', setAssoc st.counter ty ctr'⟩

/-! ### `ListQuery` (storage.go) -/

/-- `types.QueryOpts`. -/
structure QueryOpts where
  filters : List (String × String)
  limit : Int
  offset : Int
  cursor : String

/-- `types.QueryResult`. -/
structure QueryResult where
  items : List Record
  totalCount : Nat
  nextCursor : String

/-- The record's `id` field through the checked assertion
`item["id"].(string)`: `some` exactly when the field holds a string. -/
def idString (r : Record) : Option String :=
  match List.lookup "id" r with
  | some (Value.vStr s) => some s
  | _ => none

/-- All collection IDs, sorted (`sort.Strings(allIDs)`). -/
def sortedIDs (coll : Collection) : List String :=
  List.insertionSort sLe (coll.map Prod.fst)

/-- The filtered, ID-sorted record sequence of `ListQuery` (its first loop):
each sorted ID's record, kept when it matches the filters.  The `none` case
of the lookup is unreachable for IDs enumerated from the collection. -/
def filteredRecords (coll : Collection) (filters : List (String × String)) : List Record :=
  (sortedIDs coll).filterMap fun id =>
    match List.lookup id coll with
    | some e => if matchesFilters e filters then some e else none
    | none => none

/-- The IDs of the filtered records, in sorted order (a specification-side
restatement of the first loop of `ListQuery`, used to reason about the
filtered sequence). -/
def filteredIDs (coll : Collection) (filters : List (String × String)) : List String :=
  (sortedIDs coll).filter fun id =>
    match List.lookup id coll with
    | some e => matchesFilters e filters
    | none => false

/-- The cursor-search loop of `ListQuery`: index of the first record whose
`id` field is a string equal to the cursor. -/
def findCursorIdx (cursor : String) : List Record → Option Nat
  | [] => none
  | item :: rest =>
    if idString item = some cursor then some 0
    else (findCursorIdx cursor rest).map (· + 1)

/-- Cursor-based pagination of `ListQuery`: everything strictly after the
cursor's position; an unfound cursor, or one found at the last position,
empties the page. -/
def afterCursor (filtered : List Record) (cursor : String) : List Record :=
  match findCursorIdx cursor filtered with
  | some i => if i + 1 < filtered.length then filtered.drop (i + 1) else []
  | none => []

/-- The cursor/offset stage of `ListQuery`: a non-empty cursor wins, else a
positive offset skips from the front (emptying the page at or beyond the
length), else the filtered sequence passes through. -/
def pageBase (filtered : List Record) (opts : QueryOpts) : List Record :=
  if opts.cursor ≠ "" then afterCursor filtered opts.cursor
  else if 0 < opts.offset then
    if (filtered.length : Int) ≤ opts.offset then [] else filtered.drop opts.offset.toNat
  else filtered

/-- The limit stage of `ListQuery`: truncate when a positive limit is
exceeded and report the last returned record's string ID as the next cursor
(empty otherwise). -/
def applyLimit (base : List Record) (limit : Int) : List Record × String :=
  if 0 < limit ∧ limit < (base.length : Int) then
    let page := base.take limit.toNat
    let nc :=
      match page.getLast? with
      | some lastItem => (idString lastItem).getD ""
      | none => ""
    (page, nc)
  else (base, "")

/-- The body of `ListQuery` for a known entity type. -/
def listQueryColl (coll : Collection) (opts : QueryOpts) : QueryResult :=
  let filtered := filteredRecords coll opts.filters
  let totalCount := filtered.length
  let pl := applyLimit (pageBase filtered opts) opts.limit
  ⟨pl.1, totalCount, pl.2⟩

/-- `ListQuery` from `storage.go`. -/
def listQuery (st : Store) (ty : String) (opts : QueryOpts) : Except StoreErr QueryResult :=
  match List.lookup ty st.data with
  | none => Except.error StoreErr.entityTypeNotFound
  | some coll => Except.ok (listQueryColl coll opts)

/-- Repeated `ListQuery` calls feeding each non-empty `nextCursor` back as
the cursor (fuel bounds the number of round trips). -/
def collectPagesColl (coll : Collection) (opts : QueryOpts) : Nat → List Record
  | 0 => []
  | fuel + 1 =>
    if (listQueryColl coll opts).nextCursor = "" then (listQueryColl coll opts).items
    else (listQueryColl coll opts).items ++
      collectPagesColl coll
        ⟨opts.filters, opts.limit, opts.offset, (listQueryColl coll opts).nextCursor⟩ fuel

/-- The data-model invariant of an entity collection (spec §3): IDs are
unique within the collection, every record's `id` field is the string it is
stored under, and IDs are non-empty. -/
def CollInv (coll : Collection) : Prop :=
  (coll.map Prod.fst).Nodup ∧ (∀ p ∈ coll, idString p.2 = some p.1) ∧ ∀ p ∈ coll, p.1 ≠ ""

instance (coll : Collection) : Decidable (CollInv coll) := by
  unfold CollInv; infer_instance

/-! ### Store operation traces (for the counter invariant) -/

/-- One public store operation. -/
inductive StoreOp where
  | opCreate (ty : String) (data : Record)
  | opUpdate (ty id : String) (data : Record)
  | opPatch (ty id : String) (data : Record)
  | opDelete (ty id : String)
  | opSeed (ty : String) (entities : List Record)
  | opInit (tys : List String)

/-- Apply one operation, leaving the store unchanged on a typed error (the
caller observes the error; the state does not move).  A panicking `Create`
also leaves the state unchanged, modelling that a crashed process performs
no further transitions. -/
def applyOp (st : Store) : StoreOp → Store
  | StoreOp.opCreate ty data =>
    match create st ty data with
    | some (Except.ok (_, st')) => st'
    | _ => st
  | StoreOp.opUpdate ty id data =>
    match update st ty id data with
    | Except.ok st' => st'
    | Except.error _ => st
  | StoreOp.opPatch ty id data =>
    match patch st ty id data with
    | Except.ok st' => st'
    | Except.error _ => st
  | StoreOp.opDelete ty id =>
    match delete st ty id with
    | Except.ok st' => st'
    | Except.error _ => st
  | StoreOp.opSeed ty entities =>
    match seed st ty entities with
    | Except.ok st' => st'
    | Except.error _ => st
  | StoreOp.opInit tys => initTypes st tys

/-- Apply a sequence of operations. -/
def applyOps (st : Store) (ops : List StoreOp) : Store :=
  ops.foldl applyOp st

/-- The decimal values of the numeric (all-digit) string IDs a `Seed` call
stores; non-numeric IDs carry no numeric value. -/
def seedVals (entities : List Record) : List Nat :=
  entities.filterMap fun e =>
    match List.lookup "id" e with
    | some (Value.vStr s) => decimalValue s
    | _ => none

/-- The decimal values of the numeric IDs an operation assigns or seeds for
entity type `ty` when run in state `st`: the auto-assigned ID of a `Create`
without a caller-supplied ID, or the numeric string IDs of a successful
`Seed`. -/
def opVals (st : Store) (ty : String) : StoreOp → List Nat
  | StoreOp.opCreate ty' data =>
    if ty' = ty then
      match create st ty' data with
      | some (Except.ok (id, _)) =>
        match List.lookup "id" data with
        | none => (decimalValue id).toList
        | some Value.vNull => (decimalValue id).toList
        | some _ => []
      | _ => []
    else []
  | StoreOp.opSeed ty' entities =>
    if ty' = ty then
      match seed st ty' entities with
      | Except.ok _ => seedVals entities
      | Except.error _ => []
    else []
  | _ => []

/-- All numeric-ID values assigned or seeded for `ty` along a trace. -/
def traceVals (st : Store) (ty : String) : List StoreOp → List Nat
  | [] => []
  | op :: ops => opVals st ty op ++ traceVals (applyOp st op) ty ops

/-- Every numeric string ID of a seed batch has decimal value below `2^63`
(fits Go's `int` exactly, so `parseIDNumber` does not wrap on it). -/
def seedEntitiesBounded (entities : List Record) : Bool :=
  entities.all fun e =>
    match List.lookup "id" e with
    | some (Value.vStr s) =>
      match decimalValue s with
      | some v => decide ((v : Int) < 2 ^ 63)
      | none => true
    | _ => true

/-- Every `Seed` for `ty` along the trace carries only numeric IDs below
`2^63`. -/
def seedValuesBounded (ty : String) : List StoreOp → Bool
  | [] => true
  | StoreOp.opSeed ty' entities :: ops =>
    (if ty' = ty then seedEntitiesBounded entities else true) && seedValuesBounded ty ops
  | _ :: ops => seedValuesBounded ty ops

/-- The counter for `ty` never sits at `MaxInt64` at any step of the trace
(so no increment of it overflows). -/
def noCounterOverflow (ty : String) : Store → List StoreOp → Bool
  | _, [] => true
  | st, op :: ops =>
    decide (counterOf st ty ≠ 2 ^ 63 - 1) && noCounterOverflow ty (applyOp st op) ops

/-! ### Schema, loader validation and route registration -/

/-- `types.Field` (`type` is the Go type-name string). -/
structure Field where
  type : String
  required : Bool

/-- `types.Entity`. -/
structure Entity where
  fields : List (String × Field)

/-- `types.CustomRoute`. -/
structure CustomRoute where
  method : String
  path : String
  entity : String
  filters : List (String × String)

/-- `types.Schema` (the parts the route-and-query engine consumes). -/
structure Schema where
  basePath : String
  entities : List (String × Entity)
  routes : List CustomRoute

/-- `validateField` from `schema.go`: the type must be one of the five
field-type names. -/
def validateField (f : Field) : Bool :=
  f.type = "string" ∨ f.type = "number" ∨ f.type = "boolean" ∨
    f.type = "object" ∨ f.type = "array"

/-- `validateEntity` from `schema.go`: nonempty fields, an `id` field of
type `string`, and every field type valid. -/
def validateEntity (e : Entity) : Bool :=
  decide (e.fields.length ≠ 0) &&
    (match List.lookup "id" e.fields with
     | none => false
     | some idField => idField.type = "string") &&
    e.fields.all fun kv => validateField kv.2

/-- `Loader.Validate` from `schema.go`: a nonempty entity set, each entity
valid.  Note that it never inspects `schema.routes`. -/
def validateSchema (s : Schema) : Bool :=
  decide (s.entities.length ≠ 0) && s.entities.all fun kv => validateEntity kv.2

/-- Model of `strings.TrimSpace` (whitespace stripped from both ends). -/
def goTrimSpace (s : String) : String :=
  String.mk (((s.data.dropWhile Char.isWhitespace).reverse.dropWhile Char.isWhitespace).reverse)

/-- Whether a string starts with the given character. -/
def startsWithChar (s : String) (c : Char) : Bool :=
  match s.data with
  | c' :: _ => c' = c
  | [] => false

/-- `NormalizeBasePath` from `routes.go`: trim whitespace, empty means no
prefix, otherwise exactly one leading slash and no trailing slashes. -/
def normalizeBasePath (basePath : String) : String :=
  let b := goTrimSpace basePath
  if b = "" then ""
  else
    let b := if startsWithChar b '/' then b else "/" ++ b
    String.mk (b.data.reverse.dropWhile (· = '/')).reverse

/-- `schema.RouteInfo`. -/
structure RouteInfo where
  entityName : String
  collectionPath : String
  itemPath : String

/-- `BuildRouteMap` from `routes.go`: one route per entity under the
normalized base path. -/
def buildRouteMap (s : Schema) : List RouteInfo :=
  let prefixStr := normalizeBasePath s.basePath
  s.entities.map fun kv =>
    ⟨kv.1, prefixStr ++ "/" ++ kv.1, prefixStr ++ "/" ++ kv.1 ++ "/{id}"⟩

/-- Splitting a path on `/` (`strings.Split(path, "/")`). -/
def splitOnSlashAux : List Char → List Char → List String
  | [], acc => [String.mk acc.reverse]
  | c :: cs, acc =>
    if c = '/' then String.mk acc.reverse :: splitOnSlashAux cs []
    else splitOnSlashAux cs (c :: acc)

/-- `strings.Split(path, "/")`. -/
def splitOnSlash (path : String) : List String :=
  splitOnSlashAux path.data []

/-- `convertPathParams` from `server.go`: rewrite `:param` segments to
`{param}` (`part[1:]` drops the one-byte `:`). -/
def convertPathParams (path : String) : String :=
  String.intercalate "/"
    ((splitOnSlash path).map fun part =>
      if startsWithChar part ':' then "\x7b" ++ String.mk (part.data.drop 1) ++ "\x7d" else part)

/-- `extractParamNames` from `server.go`: the `:param` names of a path. -/
def extractParamNames (path : String) : List String :=
  (splitOnSlash path).filterMap fun part =>
    if startsWithChar part ':' then some (String.mk (part.data.drop 1)) else none

/-- `RegisterRoutes` from `server.go`, as the list of mux patterns it
registers: a collection and an item pattern per entity route, then every
custom route (unconditionally — the target entity is never checked), then
the catch-all `/`. -/
def registerRoutes (s : Schema) (rm : List RouteInfo) : List String :=
  (rm.flatMap fun r => [r.collectionPath, r.collectionPath ++ "/"]) ++
    (s.routes.map fun cr =>
      String.mk (cr.method.data.map Char.toUpper) ++ " " ++
        normalizeBasePath s.basePath ++ convertPathParams cr.path) ++
    ["/"]

/-- The startup storage initialization of `main.go`: a fresh store
initialized with the schema's entity names. -/
def initStore (s : Schema) : Store :=
  initTypes emptyStore (s.entities.map Prod.fst)

/-- The filter set `handleCustomRoute` assembles at request time: static
filters for keys that are not path-parameter names, then each path
parameter's value under its mapped field name (or its own name). -/
def buildCustomFilters (route : CustomRoute) (pathParams : List (String × String)) :
    List (String × String) :=
  let paramNames := extractParamNames route.path
  let staticFilters := route.filters.filter fun kv => ¬ paramNames.contains kv.1
  paramNames.foldl
    (fun fs name =>
      match List.lookup name pathParams with
      | some v =>
        if v ≠ "" then
          let key := (List.lookup name route.filters).getD name
          setAssoc fs key v
        else fs
      | none => fs)
    staticFilters

/-- The store query `handleCustomRoute` performs at request time
(`types.QueryOpts{Filters: filters}` has zero limit/offset and no cursor). -/
def customRouteQuery (st : Store) (route : CustomRoute)
    (pathParams : List (String × String)) : Except StoreErr QueryResult :=
  listQuery st route.entity ⟨buildCustomFilters route pathParams, 0, 0, ""⟩

/-! ### Response templating (response.go) -/

/-- `strings.Contains`. -/
def containsSubstr (s pat : String) : Bool :=
  decide (pat.data <:+: s.data)

/-- The inline-substitution loop of `applyTemplate`: for each variable whose
name occurs in the string, replace every occurrence with its `%v` form.
(Go iterates the variable map in unspecified order; the binding-list order
stands in for it.) -/
def substInline (s : String) (vars : List (String × Value)) : String :=
  vars.foldl
    (fun acc kv =>
      if containsSubstr acc kv.1 then acc.replace kv.1 (formatValue kv.2) else acc)
    s

mutual
/-- `applyTemplate` from `response.go`: a string leaf that exactly names a
bound variable becomes the variable's raw value; other string leaves undergo
inline textual substitution; objects and arrays are rebuilt member-wise;
other leaves pass through. -/
def applyTemplate : Value → List (String × Value) → Value
  | Value.vStr s, vars =>
    match List.lookup s vars with
    | some v => v
    | none => Value.vStr (substInline s vars)
  | Value.vObj fields, vars => Value.vObj (applyTemplateFields fields vars)
  | Value.vArr items, vars => Value.vArr (applyTemplateList items vars)
  | t, _ => t

/-- Member-wise rebuild of an array template. -/
def applyTemplateList : List Value → List (String × Value) → List Value
  | [], _ => []
  | v :: vs, vars => applyTemplate v vars :: applyTemplateList vs vars

/-- Member-wise rebuild of an object template. -/
def applyTemplateFields : List (String × Value) → List (String × Value) → List (String × Value)
  | [], _ => []
  | (k, v) :: fs, vars => (k, applyTemplate v vars) :: applyTemplateFields fs vars
end

/-- The body `respondSingle` encodes: the single-template applied to
`{"$entity": entity}` when a wrapper is configured, the bare entity
otherwise. -/
def respondSingleBody (single : Option Value) (entity : Value) : Value :=
  match single with
  | some tmpl => applyTemplate tmpl [("$entity", entity)]
  | none => entity

/-! ### Declared-type filter coercion (modelled from the spec, for C4) -/

/-- A stored value read as a number, following the spec's
"numeric fields compare as parsed floating-point". -/
def goFloatOf : Value → Option Rat
  | Value.vNum q => some q
  | Value.vStr s => parseGoFloat s
  | _ => none

/-- A stored value read as a boolean, following the spec's
"boolean fields as parsed booleans". -/
def goBoolOf : Value → Option Bool
  | Value.vBool b => some b
  | Value.vStr s => parseGoBool s
  | _ => none

/-- Modelled from the spec: filter coercion directed by the entity's
DECLARED schema field type (the comparison rule C4 claims the code uses,
stated for refinement comparison against `matchesFilter`): a field declared
`number` compares as parsed floating-point, `boolean` as parsed booleans,
`string` by exact string equality, and all other declared types via the
formatted string form.  `schema` maps field names to declared type names. -/
def matchesFilterDecl (schema : List (String × String)) (entity : Record)
    (key filterValue : String) : Bool :=
  match List.lookup key entity with
  | none => false
  | some v =>
    match List.lookup key schema with
    | none => formatValue v = filterValue
    | some t =>
      if t = "number" then
        match goFloatOf v, parseGoFloat filterValue with
        | some a, some b => a = b
        | _, _ => false
      else if t = "boolean" then
        match goBoolOf v, parseGoBool filterValue with
        | some a, some b => a = b
        | _, _ => false
      else if t = "string" then
        match v with
        | Value.vStr s => s = filterValue
        | _ => false
      else formatValue v = filterValue

/-- Modelled from the spec: AND of `matchesFilterDecl` over all filter keys. -/
def matchesFiltersDecl (schema : List (String × String)) (entity : Record)
    (filters : List (String × String)) : Bool :=
  filters.all fun kv => matchesFilterDecl schema entity kv.1 kv.2

/-- A stored value's runtime type agrees with a declared schema type
(a JSON null conforms to no type, since a type switch in Go sends a nil
interface to the default branch, not to any typed case). -/
def conformsTo : Value → String → Bool
  | Value.vNum _, t => t = "number"
  | Value.vBool _, t => t = "boolean"
  | Value.vStr _, t => t = "string"
  | Value.vObj _, t => t = "object"
  | Value.vArr _, t => t = "array"
  | Value.vNull, _ => false

/-! ### Order lemmas for the sort comparator -/

theorem lexLe_cons (a b : Char) (as bs : List Char) :
    lexLe (a :: as) (b :: bs) =
      if a.toNat < b.toNat then true
      else if b.toNat < a.toNat then false
      else lexLe as bs := rfl

theorem lexLe_total : ∀ a b : List Char, lexLe a b = true ∨ lexLe b a = true
  | [], _ => Or.inl rfl
  | _ :: _, [] => Or.inr rfl
  | a :: as, b :: bs => by
    rw [lexLe_cons, lexLe_cons]
    rcases Nat.lt_trichotomy a.toNat b.toNat with h | h | h
    · left; rw [if_pos h]
    · rcases lexLe_total as bs with ih | ih
      · left; rw [if_neg (by omega), if_neg (by omega)]; exact ih
      · right; rw [if_neg (by omega), if_neg (by omega)]; exact ih
    · right; rw [if_pos h]

theorem lexLe_trans : ∀ a b c : List Char,
    lexLe a b = true → lexLe b c = true → lexLe a c = true
  | [], _, _, _, _ => rfl
  | _ :: _, [], _, h, _ => by simp [lexLe] at h
  | _ :: _, _ :: _, [], _, h => by simp [lexLe] at h
  | a :: as, b :: bs, c :: cs, hab, hbc => by
    rw [lexLe_cons] at hab hbc ⊢
    rcases Nat.lt_trichotomy a.toNat b.toNat with h1 | h1 | h1 <;>
      rcases Nat.lt_trichotomy b.toNat c.toNat with h2 | h2 | h2
    · rw [if_pos (by omega)]
    · rw [if_pos (by omega)]
    · rw [if_neg (by omega), if_pos h2] at hbc; cases hbc
    · rw [if_pos (by omega)]
    · rw [if_neg (by omega), if_neg (by omega)] at hab hbc ⊢
      exact lexLe_trans as bs cs hab hbc
    · rw [if_neg (by omega), if_pos h2] at hbc; cases hbc
    · rw [if_neg (by omega), if_pos h1] at hab; cases hab
    · rw [if_neg (by omega), if_pos (by omega)] at hab; cases hab
    · rw [if_neg (by omega), if_pos (by omega)] at hab; cases hab

theorem char_toNat_inj {a b : Char} (h : a.toNat = b.toNat) : a = b :=
  Char.ext (UInt32.ext h)

theorem lexLe_antisymm : ∀ a b : List Char,
    lexLe a b = true → lexLe b a = true → a = b
  | [], [], _, _ => rfl
  | [], _ :: _, _, h => by simp [lexLe] at h
  | _ :: _, [], h, _ => by simp [lexLe] at h
  | a :: as, b :: bs, hab, hba => by
    rw [lexLe_cons] at hab hba
    rcases Nat.lt_trichotomy a.toNat b.toNat with h1 | h1 | h1
    · rw [if_neg (by omega), if_pos h1] at hba; cases hba
    · rw [if_neg (by omega), if_neg (by omega)] at hab hba
      rw [char_toNat_inj h1, lexLe_antisymm as bs hab hba]
    · rw [if_neg (by omega), if_pos h1] at hab; cases hab

instance : IsTotal String sLe :=
  ⟨fun a b => lexLe_total a.data b.data⟩

instance : IsTrans String sLe :=
  ⟨fun a b c => lexLe_trans a.data b.data c.data⟩

instance : IsAntisymm String sLe :=
  ⟨fun a b hab hba => String.ext (lexLe_antisymm a.data b.data hab hba)⟩

theorem sortedIDs_sorted (coll : Collection) : List.Sorted sLe (sortedIDs coll) :=
  List.sorted_insertionSort sLe (coll.map Prod.fst)

theorem sortedIDs_perm (coll : Collection) : (sortedIDs coll).Perm (coll.map Prod.fst) :=
  List.perm_insertionSort sLe (coll.map Prod.fst)

/-! ### Association-list lemmas -/

theorem lookup_cons {α : Type} (k : String) (p : String × α) (l : List (String × α)) :
    List.lookup k (p :: l) = if k = p.1 then some p.2 else List.lookup k l := by
  rcases p with ⟨k', v⟩
  by_cases h : k = k'
  · subst h
    simp [List.lookup]
  · have hb : (k == k') = false := beq_eq_false_iff_ne.mpr h
    simp [List.lookup, hb, h]

theorem lookup_eq_some_of_mem_nodup {α : Type} {l : List (String × α)} {k : String} {v : α}
    (hn : (l.map Prod.fst).Nodup) (hm : (k, v) ∈ l) : List.lookup k l = some v := by
  induction l with
  | nil => cases hm
  | cons p rest ih =>
    rcases List.mem_cons.mp hm with h | h
    · rw [← h, lookup_cons, if_pos rfl]
    · have hk : k ≠ p.1 := by
        rintro rfl
        exact (List.nodup_cons.mp hn).1 (List.mem_map.mpr ⟨(p.1, v), h, rfl⟩)
      rw [lookup_cons, if_neg hk]
      exact ih (List.nodup_cons.mp hn).2 h

theorem mem_of_lookup_eq_some {α : Type} {l : List (String × α)} {k : String} {v : α}
    (h : List.lookup k l = some v) : (k, v) ∈ l := by
  induction l with
  | nil => simp [List.lookup] at h
  | cons p rest ih =>
    rw [lookup_cons] at h
    by_cases hk : k = p.1
    · rw [if_pos hk] at h
      cases h
      rw [hk]
      exact List.mem_cons_self _ _
    · rw [if_neg hk] at h
      exact List.mem_cons_of_mem _ (ih h)

theorem lookup_perm {α : Type} {l₁ l₂ : List (String × α)} (hn : (l₁.map Prod.fst).Nodup)
    (hp : l₁.Perm l₂) (k : String) : List.lookup k l₁ = List.lookup k l₂ := by
  induction hp with
  | nil => rfl
  | cons p hp' ih =>
    rw [lookup_cons, lookup_cons]
    by_cases h : k = p.1
    · rw [if_pos h, if_pos h]
    · rw [if_neg h, if_neg h]
      exact ih (List.nodup_cons.mp (by simpa using hn)).2
  | swap p q l =>
    have hn' : (q.1 :: p.1 :: l.map Prod.fst).Nodup := by simpa using hn
    have hpq : q.1 ≠ p.1 := by
      intro e
      exact (List.nodup_cons.mp hn').1 (by rw [e]; exact List.mem_cons_self _ _)
    rw [lookup_cons, lookup_cons, lookup_cons, lookup_cons]
    by_cases h1 : k = q.1 <;> by_cases h2 : k = p.1
    · exact absurd (h1.symm.trans h2) hpq
    · rw [if_pos h1, if_neg h2, if_pos h1]
    · rw [if_neg h1, if_pos h2, if_pos h2]
    · rw [if_neg h1, if_neg h2, if_neg h2, if_neg h1]
  | trans h₁ h₂ ih₁ ih₂ =>
    have hn₂ := ((h₁.map Prod.fst).nodup_iff).mp hn
    exact (ih₁ hn).trans (ih₂ hn₂)

theorem setAssoc_cons {α : Type} (p : String × α) (l : List (String × α)) (k : String) (v : α) :
    setAssoc (p :: l) k v = if p.1 = k then (k, v) :: l else p :: setAssoc l k v := by
  rcases p with ⟨k', v'⟩
  by_cases h : k' = k
  · simp [setAssoc, h]
  · simp [setAssoc, h]

theorem lookup_setAssoc_self {α : Type} (l : List (String × α)) (k : String) (v : α) :
    List.lookup k (setAssoc l k v) = some v := by
  induction l with
  | nil =>
    show List.lookup k [(k, v)] = some v
    rw [lookup_cons, if_pos rfl]
  | cons p rest ih =>
    rw [setAssoc_cons]
    by_cases h : p.1 = k
    · rw [if_pos h, lookup_cons, if_pos rfl]
    · rw [if_neg h, lookup_cons, if_neg (fun e => h e.symm)]
      exact ih

theorem lookup_setAssoc_ne {α : Type} (l : List (String × α)) {k k' : String} (v : α)
    (h : k' ≠ k) : List.lookup k' (setAssoc l k v) = List.lookup k' l := by
  induction l with
  | nil =>
    show List.lookup k' [(k, v)] = none
    rw [lookup_cons, if_neg h]
    rfl
  | cons p rest ih =>
    rw [setAssoc_cons]
    by_cases hp : p.1 = k
    · rw [if_pos hp, lookup_cons, if_neg h, lookup_cons, hp, if_neg h]
    · rw [if_neg hp, lookup_cons, lookup_cons]
      by_cases hk : k' = p.1
      · rw [if_pos hk, if_pos hk]
      · rw [if_neg hk, if_neg hk]
        exact ih

theorem counterOf_mk (d : List (String × Collection)) (c : List (String × Int)) (ty : String) :
    counterOf ⟨d, c⟩ ty = (List.lookup ty c).getD 0 := rfl

/-! ### Wraparound arithmetic -/

theorem wrap64_lb (x : Int) : -(2 ^ 63) ≤ wrap64 x := by
  unfold wrap64
  omega

theorem wrap64_ub (x : Int) : wrap64 x < 2 ^ 63 := by
  unfold wrap64
  omega

theorem wrap64_eq_self {x : Int} (h1 : -(2 ^ 63) ≤ x) (h2 : x < 2 ^ 63) : wrap64 x = x := by
  unfold wrap64
  omega

theorem wrap64_succ_ge {x : Int} (h : x < 2 ^ 63 - 1) : x ≤ wrap64 (x + 1) := by
  unfold wrap64
  omega

/-! ### Decimal rendering and parsing, exact below the wraparound bound -/

theorem digitChar_toNat {d : Nat} (h : d < 10) : (digitChar d).toNat = 48 + d := by
  interval_cases d <;> decide

theorem formatIDLoop_eq : ∀ (fuel c : Nat) (acc : List Char), c ≤ fuel →
    formatIDLoop fuel c acc = ((Nat.digits 10 c).map digitChar).reverse ++ acc
  | 0, c, acc, h => by
    have : c = 0 := Nat.le_zero.mp h
    subst this
    simp [formatIDLoop, Nat.digits_zero]
  | fuel + 1, c, acc, h => by
    rcases Nat.eq_zero_or_pos c with hz | hp
    · subst hz
      simp [formatIDLoop, Nat.digits_zero]
    · rw [formatIDLoop, if_neg (Nat.pos_iff_ne_zero.mp hp)]
      rw [formatIDLoop_eq fuel (c / 10) _ (by
        have := Nat.div_lt_self hp (by norm_num : 1 < 10)
        omega)]
      rw [Nat.digits_def' (by norm_num : 1 < 10) hp]
      simp [List.append_assoc]

theorem foldl_reverse_digits : ∀ (L : List Nat) (num : Nat),
    L.reverse.foldl (fun a d => a * 10 + d) num = num * 10 ^ L.length + Nat.ofDigits 10 L
  | [], num => by simp [Nat.ofDigits]
  | d :: L, num => by
    rw [List.reverse_cons, List.foldl_append, foldl_reverse_digits L num]
    simp only [List.foldl, Nat.ofDigits_cons, List.length_cons]
    ring

theorem foldl_digits_map : ∀ (L : List Nat), (∀ d ∈ L, d < 10) → ∀ a : Nat,
    (L.map digitChar).foldl (fun x c => x * 10 + (c.toNat - 48)) a =
      L.foldl (fun x d => x * 10 + d) a
  | [], _, a => rfl
  | d :: L, h, a => by
    have hd : d < 10 := h d (List.mem_cons_self _ _)
    rw [List.map_cons, List.foldl_cons, List.foldl_cons, digitChar_toNat hd]
    rw [foldl_digits_map L (fun x hx => h x (List.mem_cons_of_mem _ hx))]
    congr 1
    omega

theorem decimalValue_mk (cs : List Char) :
    decimalValue (String.mk cs) =
      if cs ≠ [] ∧ ∀ c ∈ cs, 48 ≤ c.toNat ∧ c.toNat ≤ 57 then some (digitsVal cs)
      else none := rfl

theorem formatID_decimalValue (c : Int) (h : 0 ≤ c) :
    decimalValue (formatID c) = some c.toNat := by
  by_cases hlt : c < 10
  · interval_cases c <;> decide
  · push_neg at hlt
    have hc0 : c.toNat ≠ 0 := by omega
    rw [formatID, if_neg (by omega)]
    rw [formatIDLoop_eq c.toNat c.toNat [] (le_refl _), List.append_nil]
    have hdig : ∀ ch ∈ ((Nat.digits 10 c.toNat).map digitChar).reverse,
        48 ≤ ch.toNat ∧ ch.toNat ≤ 57 := by
      intro ch hch
      rw [List.mem_reverse] at hch
      obtain ⟨d, hd, rfl⟩ := List.mem_map.mp hch
      have hlt10 : d < 10 := Nat.digits_lt_base (by norm_num) hd
      rw [digitChar_toNat hlt10]
      omega
    have hne : ((Nat.digits 10 c.toNat).map digitChar).reverse ≠ [] := by
      simp [Nat.digits_ne_nil_iff_ne_zero, hc0]
    rw [decimalValue_mk, if_pos ⟨hne, hdig⟩]
    rw [show ((Nat.digits 10 c.toNat).map digitChar).reverse
        = (Nat.digits 10 c.toNat).reverse.map digitChar from by rw [List.map_reverse]]
    rw [digitsVal]
    rw [foldl_digits_map _ (fun d hd =>
      Nat.digits_lt_base (by norm_num) (List.mem_reverse.mp hd))]
    rw [foldl_reverse_digits]
    rw [Nat.ofDigits_digits]
    simp

theorem parseDigitsLoop_range : ∀ (cs : List Char) (num : Int),
    -(2 ^ 63) ≤ num → num < 2 ^ 63 →
    -(2 ^ 63) ≤ parseDigitsLoop cs num ∧ parseDigitsLoop cs num < 2 ^ 63
  | [], num, h1, h2 => ⟨h1, h2⟩
  | c :: cs, num, h1, h2 => by
    rw [parseDigitsLoop]
    by_cases hc : 48 ≤ c.toNat ∧ c.toNat ≤ 57
    · rw [if_pos hc]
      exact parseDigitsLoop_range cs _ (wrap64_lb _) (wrap64_ub _)
    · rw [if_neg hc]
      norm_num

theorem parseIDNumber_range (s : String) :
    -(2 ^ 63) ≤ parseIDNumber s ∧ parseIDNumber s < 2 ^ 63 := by
  obtain ⟨data⟩ := s
  rcases data with _ | ⟨c, rest⟩
  · show -(2 ^ 63) ≤ parseDigitsLoop [] 0 ∧ parseDigitsLoop [] 0 < 2 ^ 63
    norm_num [parseDigitsLoop]
  rcases rest with _ | ⟨c2, cs⟩
  · show -(2 ^ 63) ≤ (if 48 ≤ c.toNat ∧ c.toNat ≤ 57 then ((c.toNat : Int) - 48)
        else parseDigitsLoop [c] 0) ∧
      (if 48 ≤ c.toNat ∧ c.toNat ≤ 57 then ((c.toNat : Int) - 48)
        else parseDigitsLoop [c] 0) < 2 ^ 63
    by_cases hc : 48 ≤ c.toNat ∧ c.toNat ≤ 57
    · rw [if_pos hc]
      constructor <;> omega
    · rw [if_neg hc]
      exact parseDigitsLoop_range [c] 0 (by norm_num) (by norm_num)
  · exact parseDigitsLoop_range (c :: c2 :: cs) 0 (by norm_num) (by norm_num)

theorem foldl_digit_le : ∀ (cs : List Char) (a : Nat),
    a ≤ cs.foldl (fun x c => x * 10 + (c.toNat - 48)) a
  | [], a => le_refl a
  | c :: cs, a => by
    rw [List.foldl_cons]
    exact le_trans (by omega) (foldl_digit_le cs (a * 10 + (c.toNat - 48)))

theorem parseDigitsLoop_exact : ∀ (cs : List Char) (num : Nat),
    (∀ c ∈ cs, 48 ≤ c.toNat ∧ c.toNat ≤ 57) →
    ((cs.foldl (fun x c => x * 10 + (c.toNat - 48)) num : Nat) : Int) < 2 ^ 63 →
    parseDigitsLoop cs (num : Int) =
      ((cs.foldl (fun x c => x * 10 + (c.toNat - 48)) num : Nat) : Int)
  | [], _, _, _ => rfl
  | c :: cs, num, h, hb => by
    have hd : 48 ≤ c.toNat ∧ c.toNat ≤ 57 := h c (List.mem_cons_self _ _)
    rw [List.foldl_cons] at hb ⊢
    have hstep := foldl_digit_le cs (num * 10 + (c.toNat - 48))
    have hlt : ((num * 10 + (c.toNat - 48) : Nat) : Int) < 2 ^ 63 := by
      refine lt_of_le_of_lt ?_ hb
      exact_mod_cast hstep
    have e1 : wrap64 (wrap64 ((num : Int) * 10) + ((c.toNat : Int) - 48))
        = ((num * 10 + (c.toNat - 48) : Nat) : Int) := by
      have l1 : wrap64 ((num : Int) * 10) = (num : Int) * 10 := by
        apply wrap64_eq_self <;> push_cast at hlt ⊢ <;> omega
      rw [l1]
      have l2 : (num : Int) * 10 + ((c.toNat : Int) - 48)
          = ((num * 10 + (c.toNat - 48) : Nat) : Int) := by
        push_cast
        omega
      rw [l2]
      exact wrap64_eq_self (by omega) hlt
    rw [parseDigitsLoop, if_pos hd, e1]
    exact parseDigitsLoop_exact cs (num * 10 + (c.toNat - 48))
      (fun x hx => h x (List.mem_cons_of_mem _ hx)) hb

theorem parseIDNumber_exact (s : String) (v : Nat)
    (h : decimalValue s = some v) (hb : (v : Int) < 2 ^ 63) :
    parseIDNumber s = (v : Int) := by
  obtain ⟨data⟩ := s
  rw [decimalValue_mk] at h
  by_cases hc : data ≠ [] ∧ ∀ c ∈ data, 48 ≤ c.toNat ∧ c.toNat ≤ 57
  · rw [if_pos hc] at h
    injection h with hv
    subst hv
    rcases data with _ | ⟨c, rest⟩
    · exact absurd rfl hc.1
    rcases rest with _ | ⟨c2, cs⟩
    · have hcd := hc.2 c (List.mem_cons_self _ _)
      show (if 48 ≤ c.toNat ∧ c.toNat ≤ 57 then ((c.toNat : Int) - 48)
          else parseDigitsLoop [c] 0) = ((digitsVal [c] : Nat) : Int)
      rw [if_pos hcd]
      have hval : digitsVal [c] = c.toNat - 48 := by
        simp [digitsVal]
      rw [hval]
      omega
    · show parseDigitsLoop (c :: c2 :: cs) ((0 : Nat) : Int) = _
      exact parseDigitsLoop_exact (c :: c2 :: cs) 0 hc.2 hb
  · rw [if_neg hc] at h
    cases h

/-! ### Shapes of `create` results -/

theorem create_err_eq (st : Store) (ty : String) (data : Record)
    (hty : List.lookup ty st.data = none) :
    create st ty data = some (Except.error StoreErr.entityTypeNotFound) := by
  unfold create
  rw [hty]

theorem create_auto_eq (st : Store) (ty : String) (coll : Collection) (data : Record)
    (hty : List.lookup ty st.data = some coll)
    (hid : List.lookup "id" data = none ∨ List.lookup "id" data = some Value.vNull) :
    create st ty data = some (Except.ok (formatID (wrap64 (counterOf st ty + 1)),
      ⟨setAssoc st.data ty (setAssoc coll (formatID (wrap64 (counterOf st ty + 1)))
        (setAssoc data "id" (Value.vStr (formatID (wrap64 (counterOf st ty + 1)))))),
        setAssoc st.counter ty (wrap64 (counterOf st ty + 1))⟩)) := by
  rcases hid with h | h <;> (unfold create; rw [hty, h])

theorem create_provided_eq (st : Store) (ty : String) (coll : Collection) (data : Record)
    (s : String) (hty : List.lookup ty st.data = some coll)
    (hid : List.lookup "id" data = some (Value.vStr s)) :
    create st ty data =
      some (Except.ok (s, ⟨setAssoc st.data ty (setAssoc coll s data), st.counter⟩)) := by
  unfold create
  rw [hty, hid]

theorem create_bad_id_none (st : Store) (ty : String) (coll : Collection) (data : Record)
    (v : Value) (hty : List.lookup ty st.data = some coll)
    (hid : List.lookup "id" data = some v)
    (hnn : v ≠ Value.vNull) (hns : ∀ s, v ≠ Value.vStr s) :
    create st ty data = none := by
  unfold create
  rw [hty, hid]
  cases v with
  | vNull => exact absurd rfl hnn
  | vStr s => exact absurd rfl (hns s)
  | vBool b => rfl
  | vNum q => rfl
  | vArr es => rfl
  | vObj fs => rfl

/-! ### Counter evolution under store operations -/

theorem counterOf_setAssoc_self (c : List (String × Int)) (ty : String) (n : Int)
    (d : List (String × Collection)) : counterOf ⟨d, setAssoc c ty n⟩ ty = n := by
  rw [counterOf_mk, lookup_setAssoc_self]
  rfl

theorem counterOf_setAssoc_ne (c : List (String × Int)) {ty ty' : String} (n : Int)
    (d : List (String × Collection)) (h : ty ≠ ty') :
    counterOf ⟨d, setAssoc c ty' n⟩ ty = (List.lookup ty c).getD 0 := by
  rw [counterOf_mk, lookup_setAssoc_ne c n h]

theorem counterOf_create_mono (st : Store) (ty' : String) (data : Record) (ty : String)
    (hlt : counterOf st ty < 2 ^ 63 - 1) :
    counterOf st ty ≤
      counterOf (match create st ty' data with
        | some (Except.ok (_, st')) => st'
        | _ => st) ty := by
  rcases hty : List.lookup ty' st.data with _ | coll
  · rw [create_err_eq st ty' data hty]
  · rcases hid : List.lookup "id" data with _ | v
    · rw [create_auto_eq st ty' coll data hty (Or.inl hid)]
      by_cases h : ty = ty'
      · subst h
        rw [counterOf_setAssoc_self]
        exact wrap64_succ_ge hlt
      · rw [counterOf_setAssoc_ne _ _ _ h, counterOf]
    · cases v with
      | vNull =>
        rw [create_auto_eq st ty' coll data hty (Or.inr hid)]
        by_cases h : ty = ty'
        · subst h
          rw [counterOf_setAssoc_self]
          exact wrap64_succ_ge hlt
        · rw [counterOf_setAssoc_ne _ _ _ h, counterOf]
      | vStr s =>
        rw [create_provided_eq st ty' coll data s hty hid]
        exact le_of_eq rfl
      | vBool b => rw [create_bad_id_none st ty' coll data _ hty hid
          (fun h => Value.noConfusion h) (fun _ h => Value.noConfusion h)]
      | vNum q => rw [create_bad_id_none st ty' coll data _ hty hid
          (fun h => Value.noConfusion h) (fun _ h => Value.noConfusion h)]
      | vArr es => rw [create_bad_id_none st ty' coll data _ hty hid
          (fun h => Value.noConfusion h) (fun _ h => Value.noConfusion h)]
      | vObj fs => rw [create_bad_id_none st ty' coll data _ hty hid
          (fun h => Value.noConfusion h) (fun _ h => Value.noConfusion h)]

theorem seedLoop_counter_mono : ∀ (es : List Record) (coll : Collection) (ctr : Int),
    ctr ≤ (seedLoop coll ctr es).2
  | [], _, _ => le_refl _
  | e :: es, coll, ctr => by
    rw [seedLoop]
    rcases hid : List.lookup "id" e with _ | v
    · exact seedLoop_counter_mono es coll ctr
    · cases v with
      | vStr s =>
        refine le_trans ?_ (seedLoop_counter_mono es _ _)
        by_cases h : parseIDNumber s > ctr
        · rw [if_pos h]
          omega
        · rw [if_neg h]
      | vNull => exact seedLoop_counter_mono es coll ctr
      | vBool b => exact seedLoop_counter_mono es coll ctr
      | vNum q => exact seedLoop_counter_mono es coll ctr
      | vArr es' => exact seedLoop_counter_mono es coll ctr
      | vObj fs => exact seedLoop_counter_mono es coll ctr

theorem seedLoop_counter_lt : ∀ (es : List Record) (coll : Collection) (ctr : Int),
    ctr < 2 ^ 63 → (seedLoop coll ctr es).2 < 2 ^ 63
  | [], _, _, h => h
  | e :: es, coll, ctr, h => by
    rw [seedLoop]
    rcases hid : List.lookup "id" e with _ | v
    · exact seedLoop_counter_lt es coll ctr h
    · cases v with
      | vStr s =>
        apply seedLoop_counter_lt
        by_cases hgt : parseIDNumber s > ctr
        · rw [if_pos hgt]
          exact (parseIDNumber_range s).2
        · rw [if_neg hgt]
          exact h
      | vNull => exact seedLoop_counter_lt es coll ctr h
      | vBool b => exact seedLoop_counter_lt es coll ctr h
      | vNum q => exact seedLoop_counter_lt es coll ctr h
      | vArr es' => exact seedLoop_counter_lt es coll ctr h
      | vObj fs => exact seedLoop_counter_lt es coll ctr h

theorem counterOf_initTypes (tys : List String) (st : Store) (ty : String) :
    counterOf (initTypes st tys) ty = counterOf st ty := by
  induction tys generalizing st with
  | nil => rfl
  | cons ty₀ rest ih =>
    show counterOf (initTypes _ rest) ty = _
    rw [ih]
    rcases hd : List.lookup ty₀ st.data with _ | c <;>
      rcases hc : List.lookup ty₀ st.counter with _ | n <;>
        simp only [hd, hc] <;>
        first
          | rfl
          | (by_cases h : ty = ty₀
             · subst h
               rw [counterOf_setAssoc_self, counterOf_mk, hc]
               rfl
             · rw [counterOf_setAssoc_ne _ _ _ h, counterOf])

theorem counterOf_applyOp_mono (st : Store) (op : StoreOp) (ty : String)
    (hlt : counterOf st ty < 2 ^ 63 - 1) :
    counterOf st ty ≤ counterOf (applyOp st op) ty := by
  cases op with
  | opCreate ty' data => exact counterOf_create_mono st ty' data ty hlt
  | opUpdate ty' id data =>
    rw [applyOp]
    rcases hty : List.lookup ty' st.data with _ | coll
    · simp only [update, hty]
      exact le_refl _
    · simp only [update, hty]
      rcases hid : List.lookup id coll with _ | e <;> simp only [hid] <;> exact le_refl _
  | opPatch ty' id data =>
    rw [applyOp]
    rcases hty : List.lookup ty' st.data with _ | coll
    · simp only [patch, hty]
      exact le_refl _
    · simp only [patch, hty]
      rcases hid : List.lookup id coll with _ | e <;> simp only [hid] <;> exact le_refl _
  | opDelete ty' id =>
    rw [applyOp]
    rcases hty : List.lookup ty' st.data with _ | coll
    · simp only [delete, hty]
      exact le_refl _
    · simp only [delete, hty]
      rcases hid : List.lookup id coll with _ | e <;> simp only [hid] <;> exact le_refl _
  | opSeed ty' entities =>
    rw [applyOp]
    rcases hty : List.lookup ty' st.data with _ | coll
    · simp only [seed, hty]
      exact le_refl _
    · simp only [seed, hty]
      by_cases h : ty = ty'
      · subst h
        rw [counterOf_setAssoc_self]
        exact seedLoop_counter_mono entities coll (counterOf st ty)
      · rw [counterOf_setAssoc_ne _ _ _ h]
        exact le_refl _
  | opInit tys =>
    rw [applyOp, counterOf_initTypes]

theorem counterOf_applyOp_ub (st : Store) (op : StoreOp) (ty : String)
    (h1 : counterOf st ty < 2 ^ 63) :
    counterOf (applyOp st op) ty < 2 ^ 63 := by
  cases op with
  | opCreate ty' data =>
    rw [applyOp]
    rcases hty : List.lookup ty' st.data with _ | coll
    · rw [create_err_eq st ty' data hty]
      exact h1
    · rcases hid : List.lookup "id" data with _ | v
      · rw [create_auto_eq st ty' coll data hty (Or.inl hid)]
        by_cases h : ty = ty'
        · subst h
          rw [counterOf_setAssoc_self]
          exact wrap64_ub _
        · rw [counterOf_setAssoc_ne _ _ _ h]
          exact h1
      · cases v with
        | vNull =>
          rw [create_auto_eq st ty' coll data hty (Or.inr hid)]
          by_cases h : ty = ty'
          · subst h
            rw [counterOf_setAssoc_self]
            exact wrap64_ub _
          · rw [counterOf_setAssoc_ne _ _ _ h]
            exact h1
        | vStr s =>
          rw [create_provided_eq st ty' coll data s hty hid]
          exact h1
        | vBool b =>
          rw [create_bad_id_none st ty' coll data _ hty hid
            (fun h => Value.noConfusion h) (fun _ h => Value.noConfusion h)]
          exact h1
        | vNum q =>
          rw [create_bad_id_none st ty' coll data _ hty hid
            (fun h => Value.noConfusion h) (fun _ h => Value.noConfusion h)]
          exact h1
        | vArr es =>
          rw [create_bad_id_none st ty' coll data _ hty hid
            (fun h => Value.noConfusion h) (fun _ h => Value.noConfusion h)]
          exact h1
        | vObj fs =>
          rw [create_bad_id_none st ty' coll data _ hty hid
            (fun h => Value.noConfusion h) (fun _ h => Value.noConfusion h)]
          exact h1
  | opUpdate ty' id data =>
    rw [applyOp]
    rcases hty : List.lookup ty' st.data with _ | coll
    · simp only [update, hty]
      exact h1
    · simp only [update, hty]
      rcases hid : List.lookup id coll with _ | e <;> simp only [hid] <;> exact h1
  | opPatch ty' id data =>
    rw [applyOp]
    rcases hty : List.lookup ty' st.data with _ | coll
    · simp only [patch, hty]
      exact h1
    · simp only [patch, hty]
      rcases hid : List.lookup id coll with _ | e <;> simp only [hid] <;> exact h1
  | opDelete ty' id =>
    rw [applyOp]
    rcases hty : List.lookup ty' st.data with _ | coll
    · simp only [delete, hty]
      exact h1
    · simp only [delete, hty]
      rcases hid : List.lookup id coll with _ | e <;> simp only [hid] <;> exact h1
  | opSeed ty' entities =>
    rw [applyOp]
    rcases hty : List.lookup ty' st.data with _ | coll
    · simp only [seed, hty]
      exact h1
    · simp only [seed, hty]
      by_cases h : ty = ty'
      · subst h
        rw [counterOf_setAssoc_self]
        exact seedLoop_counter_lt entities coll (counterOf st ty) h1
      · rw [counterOf_setAssoc_ne _ _ _ h]
        exact h1
  | opInit tys =>
    rw [applyOp, counterOf_initTypes]
    exact h1

/-! ### Assigned and seeded numeric-ID values are bounded by the counter -/

theorem seedLoop_vals_le : ∀ (es : List Record) (coll : Collection) (ctr : Int),
    seedEntitiesBounded es = true →
    ∀ v ∈ seedVals es, (v : Int) ≤ (seedLoop coll ctr es).2
  | [], _, _, _, v, hv => by cases hv
  | e :: es, coll, ctr, hbd, v, hv => by
    rw [seedEntitiesBounded, List.all_cons, Bool.and_eq_true] at hbd
    have hbd1 := hbd.1
    have hbd2 : seedEntitiesBounded es = true := hbd.2
    rw [seedLoop]
    rw [seedVals, List.filterMap_cons] at hv
    rcases hid : List.lookup "id" e with _ | w
    · simp only [hid] at hv
      exact seedLoop_vals_le es coll ctr hbd2 v hv
    · cases w with
      | vStr s =>
        simp only [hid] at hv hbd1
        rcases hdv : decimalValue s with _ | dv
        · simp only [hdv] at hv
          exact seedLoop_vals_le es _ _ hbd2 v hv
        · simp only [hdv] at hv hbd1
          rcases List.mem_cons.mp hv with rfl | htail
          · have hvb : ((v : Nat) : Int) < 2 ^ 63 := of_decide_eq_true hbd1
            have hparse : parseIDNumber s = (v : Int) := parseIDNumber_exact s v hdv hvb
            refine le_trans ?_ (seedLoop_counter_mono es _ _)
            by_cases hgt : parseIDNumber s > ctr
            · rw [if_pos hgt, hparse]
            · rw [if_neg hgt]
              rw [hparse] at hgt
              omega
          · exact seedLoop_vals_le es _ _ hbd2 v htail
      | vNull =>
        simp only [hid] at hv
        exact seedLoop_vals_le es coll ctr hbd2 v hv
      | vBool b =>
        simp only [hid] at hv
        exact seedLoop_vals_le es coll ctr hbd2 v hv
      | vNum q =>
        simp only [hid] at hv
        exact seedLoop_vals_le es coll ctr hbd2 v hv
      | vArr es' =>
        simp only [hid] at hv
        exact seedLoop_vals_le es coll ctr hbd2 v hv
      | vObj fs =>
        simp only [hid] at hv
        exact seedLoop_vals_le es coll ctr hbd2 v hv

theorem opVals_le (st : Store) (ty : String) (op : StoreOp)
    (h0 : 0 ≤ counterOf st ty) (h1 : counterOf st ty < 2 ^ 63)
    (hne : counterOf st ty ≠ 2 ^ 63 - 1)
    (hsb : ∀ ty' es, op = StoreOp.opSeed ty' es → ty' = ty →
      seedEntitiesBounded es = true) :
    ∀ v ∈ opVals st ty op, (v : Int) ≤ counterOf (applyOp st op) ty := by
  intro v hv
  cases op with
  | opCreate ty' data =>
    rw [opVals] at hv
    by_cases hq : ty' = ty
    · rw [if_pos hq] at hv
      subst hq
      rcases htd : List.lookup ty' st.data with _ | coll
      · rw [create_err_eq st ty' data htd] at hv
        cases hv
      · rcases hid : List.lookup "id" data with _ | w
        · rw [create_auto_eq st ty' coll data htd (Or.inl hid), hid] at hv
          have hw : wrap64 (counterOf st ty' + 1) = counterOf st ty' + 1 :=
            wrap64_eq_self (by omega) (by omega)
          have hdv : decimalValue (formatID (wrap64 (counterOf st ty' + 1)))
              = some ((counterOf st ty' + 1).toNat) := by
            rw [hw]
            exact formatID_decimalValue _ (by omega)
          simp only [hdv, Option.toList_some] at hv
          rcases List.mem_singleton.mp hv with rfl
          rw [applyOp, create_auto_eq st ty' coll data htd (Or.inl hid), hw,
            counterOf_setAssoc_self]
          omega
        · cases w with
          | vNull =>
            rw [create_auto_eq st ty' coll data htd (Or.inr hid), hid] at hv
            have hw : wrap64 (counterOf st ty' + 1) = counterOf st ty' + 1 :=
              wrap64_eq_self (by omega) (by omega)
            have hdv : decimalValue (formatID (wrap64 (counterOf st ty' + 1)))
                = some ((counterOf st ty' + 1).toNat) := by
              rw [hw]
              exact formatID_decimalValue _ (by omega)
            simp only [hdv, Option.toList_some] at hv
            rcases List.mem_singleton.mp hv with rfl
            rw [applyOp, create_auto_eq st ty' coll data htd (Or.inr hid), hw,
              counterOf_setAssoc_self]
            omega
          | vStr s =>
            rw [create_provided_eq st ty' coll data s htd hid, hid] at hv
            cases hv
          | vBool b =>
            rw [create_bad_id_none st ty' coll data _ htd hid
              (fun h => Value.noConfusion h) (fun _ h => Value.noConfusion h)] at hv
            cases hv
          | vNum q =>
            rw [create_bad_id_none st ty' coll data _ htd hid
              (fun h => Value.noConfusion h) (fun _ h => Value.noConfusion h)] at hv
            cases hv
          | vArr es =>
            rw [create_bad_id_none st ty' coll data _ htd hid
              (fun h => Value.noConfusion h) (fun _ h => Value.noConfusion h)] at hv
            cases hv
          | vObj fs =>
            rw [create_bad_id_none st ty' coll data _ htd hid
              (fun h => Value.noConfusion h) (fun _ h => Value.noConfusion h)] at hv
            cases hv
    · rw [if_neg hq] at hv
      cases hv
  | opSeed ty' entities =>
    rw [opVals] at hv
    by_cases hq : ty' = ty
    · rw [if_pos hq] at hv
      subst hq
      rcases htd : List.lookup ty' st.data with _ | coll
      · rw [seed, htd] at hv
        cases hv
      · rw [seed, htd] at hv
        rw [applyOp, seed, htd, counterOf_setAssoc_self]
        exact seedLoop_vals_le entities coll (counterOf st ty')
          (hsb ty' entities rfl rfl) v hv
    · rw [if_neg hq] at hv
      cases hv
  | opUpdate ty' id data => cases hv
  | opPatch ty' id data => cases hv
  | opDelete ty' id => cases hv
  | opInit tys => cases hv

theorem seedValuesBounded_cons (ty : String) (op : StoreOp) (ops : List StoreOp)
    (h : seedValuesBounded ty (op :: ops) = true) :
    (∀ ty' es, op = StoreOp.opSeed ty' es → ty' = ty →
      seedEntitiesBounded es = true) ∧
    seedValuesBounded ty ops = true := by
  cases op with
  | opSeed ty' es =>
    rw [seedValuesBounded, Bool.and_eq_true] at h
    refine ⟨?_, h.2⟩
    intro ty'' es' he hq
    have h1 := h.1
    injection he with ha hb
    subst ha
    subst hb
    rw [if_pos hq] at h1
    exact h1
  | opCreate ty' data => exact ⟨fun _ _ he _ => StoreOp.noConfusion he, h⟩
  | opUpdate ty' id data => exact ⟨fun _ _ he _ => StoreOp.noConfusion he, h⟩
  | opPatch ty' id data => exact ⟨fun _ _ he _ => StoreOp.noConfusion he, h⟩
  | opDelete ty' id => exact ⟨fun _ _ he _ => StoreOp.noConfusion he, h⟩
  | opInit tys => exact ⟨fun _ _ he _ => StoreOp.noConfusion he, h⟩

theorem noCounterOverflow_cons (ty : String) (st : Store) (op : StoreOp)
    (ops : List StoreOp) (h : noCounterOverflow ty st (op :: ops) = true) :
    counterOf st ty ≠ 2 ^ 63 - 1 ∧ noCounterOverflow ty (applyOp st op) ops = true := by
  rw [noCounterOverflow, Bool.and_eq_true, decide_eq_true_iff] at h
  exact h

theorem counter_trace : ∀ (ops : List StoreOp) (st : Store) (ty : String),
    0 ≤ counterOf st ty → counterOf st ty < 2 ^ 63 →
    noCounterOverflow ty st ops = true → seedValuesBounded ty ops = true →
    (0 ≤ counterOf (applyOps st ops) ty ∧ counterOf (applyOps st ops) ty < 2 ^ 63) ∧
    counterOf st ty ≤ counterOf (applyOps st ops) ty ∧
    ∀ v ∈ traceVals st ty ops, (v : Int) ≤ counterOf (applyOps st ops) ty
  | [], st, ty, h0, h1, _, _ => ⟨⟨h0, h1⟩, le_refl _, fun v hv => by cases hv⟩
  | op :: ops, st, ty, h0, h1, hov, hsb => by
    obtain ⟨hne, hov2⟩ := noCounterOverflow_cons ty st op ops hov
    obtain ⟨hsb1, hsb2⟩ := seedValuesBounded_cons ty op ops hsb
    have hmono : counterOf st ty ≤ counterOf (applyOp st op) ty :=
      counterOf_applyOp_mono st op ty (by omega)
    have hub : counterOf (applyOp st op) ty < 2 ^ 63 := counterOf_applyOp_ub st op ty h1
    have h02 : 0 ≤ counterOf (applyOp st op) ty := le_trans h0 hmono
    have ih := counter_trace ops (applyOp st op) ty h02 hub hov2 hsb2
    have happly : applyOps st (op :: ops) = applyOps (applyOp st op) ops := rfl
    refine ⟨by rw [happly]; exact ih.1, ?_, ?_⟩
    · rw [happly]
      exact le_trans hmono ih.2.1
    · intro v hv
      rw [traceVals] at hv
      rcases List.mem_append.mp hv with hh | ht
      · have hvle := opVals_le st ty op h0 h1 hne hsb1 v hh
        rw [happly]
        exact le_trans hvle ih.2.1
      · rw [happly]
        exact ih.2.2 v ht

/-! ### C7: counter monotonicity and freshness of auto-assigned IDs -/

set_option maxRecDepth 8000 in
/-- C7 counterexample: the counter and `parseIDNumber` are 64-bit wrapping
`int`s, so both claimed invariants fail.  (1) Seeding the numeric ID
`"9223372036854775807"` (`MaxInt64`) sets the counter to `2^63 - 1`; the
next auto-generating `Create` wraps it to `-2^63`, so the counter
decreases.  (2) Seeding `"18446744073709551626"` (`2^64 + 10`) wraps in
`parseIDNumber` to `10`, so the next auto-assigned ID is `"11"` — not
numerically greater than the previously seeded numeric ID. -/
theorem counter_monotone_and_fresh_auto_ids_counterexample :
    counterOf (applyOps (initTypes emptyStore ["users"])
        [StoreOp.opSeed "users" [[("id", Value.vStr "9223372036854775807")]]]) "users"
      = 2 ^ 63 - 1 ∧
    counterOf (applyOps (initTypes emptyStore ["users"])
        [StoreOp.opSeed "users" [[("id", Value.vStr "9223372036854775807")]],
         StoreOp.opCreate "users" [("name", Value.vStr "A")]]) "users"
      = -(2 ^ 63) ∧
    ¬ (2 ^ 63 - 1 : Int) ≤ -(2 ^ 63) ∧
    decimalValue "18446744073709551626" = some 18446744073709551626 ∧
    (18446744073709551626 : Nat) ∈ traceVals (initTypes emptyStore ["users"]) "users"
        [StoreOp.opSeed "users" [[("id", Value.vStr "18446744073709551626")]]] ∧
    create (applyOps (initTypes emptyStore ["users"])
        [StoreOp.opSeed "users" [[("id", Value.vStr "18446744073709551626")]]])
        "users" [("name", Value.vStr "A")] =
      some (Except.ok ("11", ⟨[("users",
        [("18446744073709551626", [("id", Value.vStr "18446744073709551626")]),
         ("11", [("name", Value.vStr "A"), ("id", Value.vStr "11")])])],
        [("users", 11)]⟩)) ∧
    decimalValue "11" = some 11 ∧
    ¬ (18446744073709551626 : Nat) < 11 :=
  ⟨by decide, by decide, by norm_num, by decide, by decide, rfl, by decide, by norm_num⟩

/-- C7 amended: under the source's wrapping `int` arithmetic, the counter is
non-decreasing at every step where it is not at `MaxInt64` (`2^63 - 1`), and
the freshness property holds on traces that stay inside the unwrapped
range: starting from a nonnegative in-range counter, if the counter never
sits at `MaxInt64` when an operation is applied, every seeded numeric ID
value fits in an `int` (is below `2^63`), and the counter reached by the
trace is not `MaxInt64`, then a `Create` without a caller-supplied ID
assigns the decimal ID `counter + 1`, which is numerically strictly greater
than every numeric ID previously auto-assigned or seeded for that entity
type along the trace. -/
theorem counter_monotone_and_fresh_auto_ids :
    (∀ (st : Store) (op : StoreOp) (ty : String),
      counterOf st ty < 2 ^ 63 - 1 →
      counterOf st ty ≤ counterOf (applyOp st op) ty) ∧
    (∀ (st₀ : Store) (ops : List StoreOp) (ty : String) (data : Record) (id : String)
      (res : Store),
      0 ≤ counterOf st₀ ty →
      counterOf st₀ ty < 2 ^ 63 →
      noCounterOverflow ty st₀ ops = true →
      seedValuesBounded ty ops = true →
      counterOf (applyOps st₀ ops) ty ≠ 2 ^ 63 - 1 →
      (List.lookup "id" data = none ∨ List.lookup "id" data = some Value.vNull) →
      create (applyOps st₀ ops) ty data = some (Except.ok (id, res)) →
      decimalValue id = some ((counterOf (applyOps st₀ ops) ty).toNat + 1) ∧
      ∀ v ∈ traceVals st₀ ty ops, v < (counterOf (applyOps st₀ ops) ty).toNat + 1) := by
  constructor
  · exact counterOf_applyOp_mono
  · intro st₀ ops ty data id res h0 h1 hov hsb hne hid hok
    have htr := counter_trace ops st₀ ty h0 h1 hov hsb
    set st := applyOps st₀ ops with hst
    obtain ⟨⟨hr0, hr1⟩, _, hvals⟩ := htr
    rcases htd : List.lookup ty st.data with _ | coll
    · rw [create_err_eq st ty data htd] at hok
      cases hok
    · rw [create_auto_eq st ty coll data htd hid] at hok
      have hw : wrap64 (counterOf st ty + 1) = counterOf st ty + 1 :=
        wrap64_eq_self (by omega) (by omega)
      have hid_eq : id = formatID (wrap64 (counterOf st ty + 1)) := by
        injection hok with h
        injection h with h
        exact (congrArg Prod.fst h).symm
      constructor
      · rw [hid_eq, hw, formatID_decimalValue _ (by omega)]
        congr 1
        omega
      · intro v hv
        have hvle := hvals v hv
        omega

/-- Witness for the amended C7: over the concrete trace that seeds the ID
`"5"`, both conjuncts applied at concrete inputs — the counter does not
decrease under the auto-creating operation, the assigned ID `"6"` has the
decimal value `counter + 1`, and the seeded value `5` is below it. -/
theorem counter_monotone_and_fresh_auto_ids_witness :
    counterOf (initTypes emptyStore ["users"]) "users" ≤
      counterOf (applyOp (initTypes emptyStore ["users"])
        (StoreOp.opCreate "users" [("name", Value.vStr "A")])) "users" ∧
    decimalValue "6" = some ((counterOf (applyOps (initTypes emptyStore ["users"])
      [StoreOp.opSeed "users" [[("id", Value.vStr "5")]]]) "users").toNat + 1) ∧
    (5 : Nat) < (counterOf (applyOps (initTypes emptyStore ["users"])
      [StoreOp.opSeed "users" [[("id", Value.vStr "5")]]]) "users").toNat + 1 :=
  ⟨counter_monotone_and_fresh_auto_ids.1 (initTypes emptyStore ["users"])
      (StoreOp.opCreate "users" [("name", Value.vStr "A")]) "users" (by decide),
    (counter_monotone_and_fresh_auto_ids.2 (initTypes emptyStore ["users"])
      [StoreOp.opSeed "users" [[("id", Value.vStr "5")]]] "users"
      [("name", Value.vStr "A")] "6"
      ⟨[("users", [("5", [("id", Value.vStr "5")]),
          ("6", [("name", Value.vStr "A"), ("id", Value.vStr "6")])])],
        [("users", 6)]⟩
      (by decide) (by decide) (by decide) (by decide) (by decide)
      (Or.inl rfl) rfl).1,
    (counter_monotone_and_fresh_auto_ids.2 (initTypes emptyStore ["users"])
      [StoreOp.opSeed "users" [[("id", Value.vStr "5")]]] "users"
      [("name", Value.vStr "A")] "6"
      ⟨[("users", [("5", [("id", Value.vStr "5")]),
          ("6", [("name", Value.vStr "A"), ("id", Value.vStr "6")])])],
        [("users", 6)]⟩
      (by decide) (by decide) (by decide) (by decide) (by decide)
      (Or.inl rfl) rfl).2 5 (by decide)⟩

/-! ### C10: non-string caller-supplied IDs make Create panic -/

/-- C10: for an initialized entity type, a record whose `id` field is
present, non-nil and not a string drives `Create` into its unchecked type
assertion `providedID.(string)`: the call panics (modelled as `none`)
instead of returning `EntityTypeNotFound`, `NotFound`, or any typed error. -/
theorem create_panics_on_nonstring_id (st : Store) (ty : String) (coll : Collection)
    (data : Record) (v : Value)
    (hty : List.lookup ty st.data = some coll)
    (hid : List.lookup "id" data = some v)
    (hnn : v ≠ Value.vNull)
    (hns : ∀ s, v ≠ Value.vStr s) :
    create st ty data = none := by
  unfold create
  rw [hty, hid]
  cases v with
  | vNull => exact absurd rfl hnn
  | vStr s => exact absurd rfl (hns s)
  | vBool b => rfl
  | vNum q => rfl
  | vArr es => rfl
  | vObj fs => rfl

/-- Witness for C10 at a concrete input: `id` bound to the JSON number 7. -/
theorem create_panics_on_nonstring_id_witness :
    create (initTypes emptyStore ["users"]) "users" [("id", Value.vNum 7)] = none :=
  create_panics_on_nonstring_id (initTypes emptyStore ["users"]) "users" [] _ (Value.vNum 7)
    rfl rfl (fun h => Value.noConfusion h) (fun _ h => Value.noConfusion h)

/-! ### C5: AND semantics of the filter set -/

/-- C5: a record matches a multi-key filter set iff it matches each key
independently; adding a filter key never increases the match set (both
record-wise and counted over a collection); and a record lacking a filtered
field never matches. -/
theorem matchesFilters_and_semantics :
    (∀ (e : Record) (fl : List (String × String)),
      matchesFilters e fl = true ↔ ∀ kv ∈ fl, matchesFilters e [kv] = true) ∧
    (∀ (e : Record) (kv : String × String) (fl : List (String × String)),
      matchesFilters e (kv :: fl) = true → matchesFilters e fl = true) ∧
    (∀ (coll : Collection) (kv : String × String) (fl : List (String × String)),
      coll.countP (fun p => matchesFilters p.2 (kv :: fl)) ≤
        coll.countP (fun p => matchesFilters p.2 fl)) ∧
    (∀ (e : Record) (fl : List (String × String)) (k v : String),
      (k, v) ∈ fl → List.lookup k e = none → matchesFilters e fl = false) := by
  have hsingle : ∀ (e : Record) (kv : String × String),
      matchesFilters e [kv] = (matchesFilter e kv.1 kv.2) := by
    intro e kv
    simp [matchesFilters]
  have hall : ∀ (e : Record) (fl : List (String × String)),
      matchesFilters e fl = true ↔ ∀ kv ∈ fl, matchesFilter e kv.1 kv.2 = true := by
    intro e fl
    simp [matchesFilters, List.all_eq_true]
  refine ⟨?_, ?_, ?_, ?_⟩
  · intro e fl
    rw [hall]
    constructor
    · intro h kv hm
      rw [hsingle]
      exact h kv hm
    · intro h kv hm
      have := h kv hm
      rwa [hsingle] at this
  · intro e kv fl h
    rw [hall] at h ⊢
    intro kv' hm
    exact h kv' (List.mem_cons_of_mem _ hm)
  · intro coll kv fl
    apply List.countP_mono_left
    intro p _ hp
    rw [hall] at hp ⊢
    intro kv' hm
    exact hp kv' (List.mem_cons_of_mem _ hm)
  · intro e fl k v hm hnone
    have : ¬ matchesFilters e fl = true := by
      intro htrue
      have hk := (hall e fl).mp htrue (k, v) hm
      rw [matchesFilter, hnone] at hk
      cases hk
    exact Bool.eq_false_iff.mpr this

/-- Witness for C5 at a concrete input (monotonicity part, concrete record
and filter). -/
theorem matchesFilters_and_semantics_witness :
    matchesFilters [("a", Value.vStr "x")] [] = true :=
  matchesFilters_and_semantics.2.1 [("a", Value.vStr "x")] ("a", "x") [] (by decide)

/-! ### C4: filter coercion is runtime-typed, not declared-typed -/

/-- C4 counterexample: field `n` is declared `number` but stores the string
`"5"`; filtering on `n=5.0` matches under the spec's declared-type coercion
(both sides parse to the float 5) yet `matchesFilters` rejects it, because
the code switches on the stored value's runtime type (string) and compares
`"5" ≠ "5.0"` exactly. -/
theorem matchesFilters_declared_type_counterexample :
    matchesFiltersDecl [("n", "number")] [("n", Value.vStr "5")] [("n", "5.0")] = true ∧
    matchesFilters [("n", Value.vStr "5")] [("n", "5.0")] = false := by
  constructor
  · simp [matchesFiltersDecl, matchesFilterDecl, goFloatOf, List.all, List.lookup,
      parseGoFloat, takeDigitChars, digitsVal]
  · decide

/-- C4 amended: filter coercion follows the runtime type of the stored
value; whenever every filtered field is declared in the schema and its
stored value's runtime type matches its declared type, the runtime-typed
coercion of `matchesFilters` agrees with the declared-type coercion the
spec describes. -/
theorem matchesFilters_agrees_when_conformant (schema : List (String × String)) (e : Record)
    (fl : List (String × String))
    (hconf : ∀ kv ∈ fl, ∃ t v, List.lookup kv.1 schema = some t ∧
      List.lookup kv.1 e = some v ∧ conformsTo v t = true) :
    matchesFilters e fl = matchesFiltersDecl schema e fl := by
  induction fl with
  | nil => rfl
  | cons kv fl ih =>
    have hhead : matchesFilter e kv.1 kv.2 = matchesFilterDecl schema e kv.1 kv.2 := by
      obtain ⟨t, v, hs, he, hc⟩ := hconf kv (List.mem_cons_self _ _)
      cases v with
      | vNull => cases hc
      | vNum q =>
        have ht : t = "number" := by simpa [conformsTo] using hc
        subst ht
        rcases hf : parseGoFloat kv.2 with _ | f <;>
          simp [matchesFilter, matchesFilterDecl, he, hs, goFloatOf, hf]
      | vBool b =>
        have ht : t = "boolean" := by simpa [conformsTo] using hc
        subst ht
        rcases hf : parseGoBool kv.2 with _ | f <;>
          simp [matchesFilter, matchesFilterDecl, he, hs, goBoolOf, hf]
      | vStr s =>
        have ht : t = "string" := by simpa [conformsTo] using hc
        subst ht
        simp [matchesFilter, matchesFilterDecl, he, hs]
      | vObj fs =>
        have ht : t = "object" := by simpa [conformsTo] using hc
        subst ht
        simp [matchesFilter, matchesFilterDecl, he, hs]
      | vArr es =>
        have ht : t = "array" := by simpa [conformsTo] using hc
        subst ht
        simp [matchesFilter, matchesFilterDecl, he, hs]
    have htail := ih fun kv' hm => hconf kv' (List.mem_cons_of_mem _ hm)
    show (matchesFilter e kv.1 kv.2 && matchesFilters e fl) =
      (matchesFilterDecl schema e kv.1 kv.2 && matchesFiltersDecl schema e fl)
    rw [hhead, htail]

/-- Witness for the amended C4 at concrete conforming input. -/
theorem matchesFilters_agrees_when_conformant_witness :
    matchesFilters [("b", Value.vBool true)] [("b", "true")] =
      matchesFiltersDecl [("b", "boolean")] [("b", Value.vBool true)] [("b", "true")] :=
  matchesFilters_agrees_when_conformant [("b", "boolean")] [("b", Value.vBool true)]
    [("b", "true")]
    (by
      intro kv hm
      rcases List.mem_singleton.mp hm with rfl
      exact ⟨"boolean", Value.vBool true, rfl, rfl, rfl⟩)

/-! ### C9: template substitution -/

/-- C9: a string leaf that exactly equals a bound variable name is replaced
by the variable's raw value with its type preserved; a string leaf that is
not itself a variable name only undergoes inline textual substitution; and
the single-entity wrapper template applied by `respondSingle` to any record
`R` yields exactly that structure with `R` passed through unmodified. -/
theorem applyTemplate_exact_value_and_roundtrip :
    (∀ (s : String) (vars : List (String × Value)) (v : Value),
      List.lookup s vars = some v → applyTemplate (Value.vStr s) vars = v) ∧
    (∀ (s : String) (vars : List (String × Value)),
      List.lookup s vars = none →
        applyTemplate (Value.vStr s) vars = Value.vStr (substInline s vars)) ∧
    (∀ R : Value,
      respondSingleBody (some (Value.vObj [("data", Value.vStr "$entity")])) R =
        Value.vObj [("data", R)]) := by
  refine ⟨?_, ?_, ?_⟩
  · intro s vars v h
    rw [applyTemplate, h]
  · intro s vars h
    rw [applyTemplate, h]
  · intro R
    simp [respondSingleBody, applyTemplate, applyTemplateFields, List.lookup]

/-- Witness for C9: a bound object-valued variable substitutes raw. -/
theorem applyTemplate_exact_value_and_roundtrip_witness :
    applyTemplate (Value.vStr "$entity") [("$entity", Value.vObj [("id", Value.vStr "1")])] =
      Value.vObj [("id", Value.vStr "1")] :=
  applyTemplate_exact_value_and_roundtrip.1 "$entity"
    [("$entity", Value.vObj [("id", Value.vStr "1")])] (Value.vObj [("id", Value.vStr "1")]) rfl

/-! ### C6: ID synthesis in Create -/

/-- C6 counterexample: a record whose `id` field is the EMPTY string is not
given a synthesized ID — `Create` uses `""` verbatim (the claim's
"absent or empty" branch would have produced the counter-synthesized
`"1"` and advanced the counter, but the counter stays 0 and the record is
stored under the empty-string key). -/
theorem create_empty_string_id_counterexample :
    create (initTypes emptyStore ["users"]) "users" [("id", Value.vStr "")] =
      some (Except.ok ("",
        (⟨[("users", [("", [("id", Value.vStr "")])])], [("users", 0)]⟩ : Store))) ∧
    formatID (wrap64 (counterOf (initTypes emptyStore ["users"]) "users" + 1)) = "1" ∧
    counterOf ⟨[("users", [("", [("id", Value.vStr "")])])], [("users", 0)]⟩ "users" = 0 ∧
    ("" : String) ≠ "1" :=
  ⟨rfl, by decide, rfl, by decide⟩

/-- C6 amended: `Create` synthesizes the next decimal-string ID
(increment-then-format, the increment wrapping like Go's 64-bit `int`)
exactly when the record's `id` field is absent or null; any caller-supplied
string ID — including the empty string — is used verbatim, silently
overwriting any record already stored under it; the stored record is the
input record (with the synthesized ID added in the generated case) and the
final ID is returned. -/
theorem create_id_semantics (st : Store) (ty : String) (coll : Collection) (data : Record)
    (hty : List.lookup ty st.data = some coll) :
    ((List.lookup "id" data = none ∨ List.lookup "id" data = some Value.vNull) →
      ∃ st', create st ty data =
          some (Except.ok (formatID (wrap64 (counterOf st ty + 1)), st')) ∧
        counterOf st' ty = wrap64 (counterOf st ty + 1) ∧
        get st' ty (formatID (wrap64 (counterOf st ty + 1))) =
          Except.ok (setAssoc data "id"
            (Value.vStr (formatID (wrap64 (counterOf st ty + 1)))))) ∧
    (∀ s, List.lookup "id" data = some (Value.vStr s) →
      ∃ st', create st ty data = some (Except.ok (s, st')) ∧
        counterOf st' ty = counterOf st ty ∧
        get st' ty s = Except.ok data ∧
        ∀ id', id' ≠ s → get st' ty id' = get st ty id') := by
  constructor
  · intro hid
    refine ⟨⟨setAssoc st.data ty
        (setAssoc coll (formatID (wrap64 (counterOf st ty + 1)))
          (setAssoc data "id" (Value.vStr (formatID (wrap64 (counterOf st ty + 1)))))),
      setAssoc st.counter ty (wrap64 (counterOf st ty + 1))⟩, ?_, ?_, ?_⟩
    · rcases hid with h | h <;> (unfold create; rw [hty, h])
    · rw [counterOf_mk, lookup_setAssoc_self]
      rfl
    · simp only [get, lookup_setAssoc_self]
  · intro s hid
    refine ⟨⟨setAssoc st.data ty (setAssoc coll s data), st.counter⟩, ?_, rfl, ?_, ?_⟩
    · unfold create
      rw [hty, hid]
    · simp only [get, lookup_setAssoc_self]
    · intro id' hne
      simp only [get, lookup_setAssoc_self, hty]
      rw [lookup_setAssoc_ne coll data hne]

/-- Witness for the amended C6 at concrete inputs (both branches used
through the same theorem instance). -/
theorem create_id_semantics_witness :
    ∃ st', create (initTypes emptyStore ["users"]) "users" [("name", Value.vStr "A")] =
      some (Except.ok
        (formatID (wrap64 (counterOf (initTypes emptyStore ["users"]) "users" + 1)), st')) ∧
      counterOf st' "users" = wrap64 (counterOf (initTypes emptyStore ["users"]) "users" + 1) ∧
      get st' "users"
          (formatID (wrap64 (counterOf (initTypes emptyStore ["users"]) "users" + 1))) =
        Except.ok (setAssoc [("name", Value.vStr "A")] "id"
          (Value.vStr
            (formatID (wrap64 (counterOf (initTypes emptyStore ["users"]) "users" + 1))))) :=
  (create_id_semantics (initTypes emptyStore ["users"]) "users" [] [("name", Value.vStr "A")]
    rfl).1 (Or.inl rfl)

/-! ### C8: custom routes with unknown target entities -/

theorem initTypes_lookup_not_mem (tys : List String) (st : Store) (ty : String)
    (h : ty ∉ tys) : List.lookup ty (initTypes st tys).data = List.lookup ty st.data := by
  induction tys generalizing st with
  | nil => rfl
  | cons ty₀ rest ih =>
    have hne : ty ≠ ty₀ := fun e => h (e ▸ List.mem_cons_self _ _)
    have hrest : ty ∉ rest := fun hm => h (List.mem_cons_of_mem _ hm)
    show List.lookup ty (initTypes _ rest).data = _
    rw [ih _ hrest]
    rcases hd : List.lookup ty₀ st.data with _ | c <;>
      rcases hc : List.lookup ty₀ st.counter with _ | n <;>
        simp only [hd, hc] <;>
        first
          | rfl
          | (exact lookup_setAssoc_ne st.data [] hne)

/-- Length of the flat-mapped CRUD patterns (two per entity route). -/
theorem flatMap_pair_length (rm : List RouteInfo) :
    (rm.flatMap fun r => [r.collectionPath, r.collectionPath ++ "/"]).length = 2 * rm.length := by
  induction rm with
  | nil => rfl
  | cons r rest ih =>
    simp only [List.flatMap_cons, List.length_append, ih, List.length_cons, List.length_nil]
    omega

/-- C8 amended: a custom route whose declared entity is absent from the
schema is NOT detected at startup — schema validation never inspects the
custom-route list and `RegisterRoutes` registers every custom route
unconditionally — and a request against such a route reaches request-time
handling, where the store query returns `EntityTypeNotFound` (served as a
404). -/
theorem custom_route_bad_entity_fails_at_request_time (s : Schema) (cr : CustomRoute)
    (pathParams : List (String × String))
    (_hmem : cr ∈ s.routes)
    (habs : cr.entity ∉ s.entities.map Prod.fst) :
    (∀ rs : List CustomRoute, validateSchema ⟨s.basePath, s.entities, rs⟩ = validateSchema s) ∧
    (registerRoutes s (buildRouteMap s)).length = 2 * s.entities.length + s.routes.length + 1 ∧
    customRouteQuery (initStore s) cr pathParams = Except.error StoreErr.entityTypeNotFound := by
  refine ⟨fun rs => rfl, ?_, ?_⟩
  · simp only [registerRoutes, List.length_append, flatMap_pair_length, List.length_map,
      buildRouteMap, List.length_cons, List.length_nil]
  · rw [customRouteQuery, listQuery]
    have : List.lookup cr.entity (initStore s).data = none := by
      rw [initStore, initTypes_lookup_not_mem _ _ _ habs]
      rfl
    rw [this]

/-- Witness for the amended C8 at a concrete schema and route. -/
theorem custom_route_bad_entity_fails_at_request_time_witness :
    customRouteQuery
      (initStore ⟨"", [("users", ⟨[("id", ⟨"string", true⟩)]⟩)],
        [⟨"GET", "/me", "ghosts", []⟩]⟩)
      ⟨"GET", "/me", "ghosts", []⟩ [] = Except.error StoreErr.entityTypeNotFound :=
  (custom_route_bad_entity_fails_at_request_time
    ⟨"", [("users", ⟨[("id", ⟨"string", true⟩)]⟩)], [⟨"GET", "/me", "ghosts", []⟩]⟩
    ⟨"GET", "/me", "ghosts", []⟩ [] (List.mem_cons_self _ _) (by decide)).2.2

/-! ### The filtered, sorted record sequence -/

theorem filterMapCongr {α β : Type} {f g : α → Option β} :
    ∀ l : List α, (∀ a ∈ l, f a = g a) → l.filterMap f = l.filterMap g
  | [], _ => rfl
  | a :: l, h => by
    rw [List.filterMap_cons, List.filterMap_cons, h a (List.mem_cons_self _ _),
      filterMapCongr l fun x hx => h x (List.mem_cons_of_mem _ hx)]

theorem sortedIDs_eq_of_perm {coll₁ coll₂ : Collection} (hp : coll₁.Perm coll₂) :
    sortedIDs coll₁ = sortedIDs coll₂ := by
  apply List.eq_of_perm_of_sorted (r := sLe)
  · exact (sortedIDs_perm coll₁).trans ((hp.map Prod.fst).trans (sortedIDs_perm coll₂).symm)
  · exact sortedIDs_sorted coll₁
  · exact sortedIDs_sorted coll₂

theorem filteredRecords_eq_of_perm {coll₁ coll₂ : Collection}
    (hn : (coll₁.map Prod.fst).Nodup) (hp : coll₁.Perm coll₂)
    (fl : List (String × String)) :
    filteredRecords coll₁ fl = filteredRecords coll₂ fl := by
  rw [filteredRecords, filteredRecords, sortedIDs_eq_of_perm hp]
  apply filterMapCongr
  intro id _
  rw [lookup_perm hn hp id]

theorem mem_filteredRecords {coll : Collection} {fl : List (String × String)} {r : Record}
    (h : r ∈ filteredRecords coll fl) :
    ∃ k, (k, r) ∈ coll ∧ List.lookup k coll = some r ∧ matchesFilters r fl = true := by
  rw [filteredRecords] at h
  obtain ⟨id, _, hf⟩ := List.mem_filterMap.mp h
  rcases hl : List.lookup id coll with _ | e
  · rw [hl] at hf
    cases hf
  · rw [hl] at hf
    by_cases hm : matchesFilters e fl = true
    · have hf' : e = r := by simpa [hm] using hf
      subst hf'
      exact ⟨id, mem_of_lookup_eq_some hl, hl, hm⟩
    · simp [hm] at hf

theorem map_idString_filteredRecords {coll : Collection} {fl : List (String × String)}
    (hinv : ∀ p ∈ coll, idString p.2 = some p.1) :
    (filteredRecords coll fl).map idString = (filteredIDs coll fl).map some := by
  rw [filteredRecords, filteredIDs]
  generalize sortedIDs coll = ids
  induction ids with
  | nil => rfl
  | cons id rest ih =>
    rcases hl : List.lookup id coll with _ | e
    · simp [List.filterMap_cons, List.filter_cons, hl, ih]
    · by_cases hm : matchesFilters e fl = true
      · have hkey : idString e = some id := hinv (id, e) (mem_of_lookup_eq_some hl)
        simp [List.filterMap_cons, List.filter_cons, hl, hm, hkey, ih]
      · simp [List.filterMap_cons, List.filter_cons, hl, hm, ih]

theorem filteredIDs_sorted_nodup (coll : Collection) (fl : List (String × String))
    (hn : (coll.map Prod.fst).Nodup) :
    List.Sorted sLe (filteredIDs coll fl) ∧ (filteredIDs coll fl).Nodup := by
  constructor
  · exact (sortedIDs_sorted coll).filter _
  · exact ((sortedIDs_perm coll).nodup_iff.mpr hn).filter _

theorem filteredRecords_map_idString_nodup {coll : Collection} {fl : List (String × String)}
    (hinv : CollInv coll) : ((filteredRecords coll fl).map idString).Nodup := by
  rw [map_idString_filteredRecords hinv.2.1]
  exact ((filteredIDs_sorted_nodup coll fl hinv.1).2).map (fun _ _ h => Option.some.inj h)

theorem filteredRecords_elem_id {coll : Collection} {fl : List (String × String)}
    (hinv : CollInv coll) {e : Record} (he : e ∈ filteredRecords coll fl) :
    ∃ ck, idString e = some ck ∧ ck ≠ "" := by
  obtain ⟨k, hk, _, _⟩ := mem_filteredRecords he
  exact ⟨k, hinv.2.1 (k, e) hk, hinv.2.2 (k, e) hk⟩

theorem countP_filterMap_if {α β : Type} (q : α → Bool) (h : α → β) :
    ∀ l : List α, (l.filterMap fun p => if q p then some (h p) else none).length = l.countP q
  | [] => rfl
  | a :: l => by
    rw [List.filterMap_cons, List.countP_cons]
    by_cases hq : q a = true
    · rw [if_pos hq, hq, List.length_cons, countP_filterMap_if q h l]
      rfl
    · rw [if_neg hq, countP_filterMap_if q h l, Bool.eq_false_iff.mpr hq]
      rfl

theorem map_fst_filterMap_lookup (fl : List (String × String)) :
    ∀ coll : Collection, (coll.map Prod.fst).Nodup →
      ((coll.map Prod.fst).filterMap fun id =>
        match List.lookup id coll with
        | some e => if matchesFilters e fl then some e else none
        | none => none) =
      coll.filterMap fun p => if matchesFilters p.2 fl then some p.2 else none
  | [], _ => rfl
  | (k, e) :: rest, hn => by
    rw [List.map_cons, List.filterMap_cons, List.filterMap_cons]
    have hk : List.lookup k ((k, e) :: rest) = some e := by
      rw [lookup_cons, if_pos rfl]
    rw [hk]
    have hcongr : (rest.map Prod.fst).filterMap (fun id =>
        match List.lookup id ((k, e) :: rest) with
        | some e => if matchesFilters e fl then some e else none
        | none => none) =
        (rest.map Prod.fst).filterMap (fun id =>
        match List.lookup id rest with
        | some e => if matchesFilters e fl then some e else none
        | none => none) := by
      apply filterMapCongr
      intro id hid
      have hne : id ≠ k := by
        rintro rfl
        exact (List.nodup_cons.mp hn).1 hid
      rw [lookup_cons, if_neg hne]
    have ih := map_fst_filterMap_lookup fl rest (List.nodup_cons.mp hn).2
    by_cases hm : matchesFilters e fl = true <;>
      simp [List.filterMap_cons, hk, hcongr, ih, hm]

theorem filteredRecords_length_countP (coll : Collection) (fl : List (String × String))
    (hn : (coll.map Prod.fst).Nodup) :
    (filteredRecords coll fl).length = coll.countP fun p => matchesFilters p.2 fl := by
  rw [filteredRecords]
  have hperm : ((sortedIDs coll).filterMap fun id =>
      match List.lookup id coll with
      | some e => if matchesFilters e fl then some e else none
      | none => none).Perm
      ((coll.map Prod.fst).filterMap fun id =>
      match List.lookup id coll with
      | some e => if matchesFilters e fl then some e else none
      | none => none) :=
    (sortedIDs_perm coll).filterMap _
  rw [hperm.length_eq, map_fst_filterMap_lookup fl coll hn,
    countP_filterMap_if (fun p => matchesFilters p.2 fl) Prod.snd coll]

/-! ### Cursor positioning -/

theorem findCursorIdx_eq_some {c : String} :
    ∀ {l : List Record} {j : Nat} {e : Record}, (l.map idString).Nodup →
      l[j]? = some e → idString e = some c → findCursorIdx c l = some j
  | [], j, e, _, hj, _ => by cases j <;> cases hj
  | x :: xs, 0, e, _, hj, he => by
    have hx : x = e := by simpa using hj
    subst hx
    rw [findCursorIdx, if_pos (by rw [he])]
  | x :: xs, j + 1, e, hn, hj, he => by
    have hj' : xs[j]? = some e := by
      simpa using hj
    have hmem : e ∈ xs := List.mem_iff_getElem?.mpr ⟨j, hj'⟩
    have hne : ¬ idString x = some c := by
      intro hx
      have : idString x ∈ xs.map idString := by
        rw [hx, ← he]
        exact List.mem_map_of_mem idString hmem
      exact (List.nodup_cons.mp (by simpa using hn)).1 this
    rw [findCursorIdx, if_neg hne,
      findCursorIdx_eq_some (List.nodup_cons.mp (by simpa using hn)).2 hj' he]
    rfl

theorem findCursorIdx_eq_none {c : String} :
    ∀ {l : List Record}, (∀ e ∈ l, idString e ≠ some c) → findCursorIdx c l = none
  | [], _ => rfl
  | x :: xs, h => by
    rw [findCursorIdx, if_neg (h x (List.mem_cons_self _ _)),
      findCursorIdx_eq_none fun e he => h e (List.mem_cons_of_mem _ he)]
    rfl

theorem afterCursor_eq_drop {fs : List Record} {j : Nat} {e : Record} {c : String}
    (hn : (fs.map idString).Nodup) (hj : fs[j]? = some e) (he : idString e = some c) :
    afterCursor fs c = fs.drop (j + 1) := by
  rw [afterCursor, findCursorIdx_eq_some hn hj he]
  show (if j + 1 < fs.length then fs.drop (j + 1) else []) = fs.drop (j + 1)
  by_cases h : j + 1 < fs.length
  · rw [if_pos h]
  · rw [if_neg h]
    have hjlt : j < fs.length := by
      by_contra hge
      rw [List.getElem?_eq_none (by omega)] at hj
      cases hj
    exact (List.drop_eq_nil_of_le (by omega)).symm

theorem afterCursor_eq_nil {fs : List Record} {c : String}
    (h : ∀ e ∈ fs, idString e ≠ some c) : afterCursor fs c = [] := by
  rw [afterCursor, findCursorIdx_eq_none h]

/-! ### Pagination stages -/

theorem pageBase_cursor_ne (fs : List Record) (opts : QueryOpts) (h : opts.cursor ≠ "") :
    pageBase fs opts = afterCursor fs opts.cursor := by
  rw [pageBase, if_pos h]

theorem pageBase_start (fs : List Record) (opts : QueryOpts) (hc : opts.cursor = "")
    (ho : opts.offset ≤ 0) : pageBase fs opts = fs := by
  rw [pageBase, if_neg (by simp [hc]), if_neg (by omega)]

theorem afterCursor_subset (fs : List Record) (c : String) :
    ∀ e ∈ afterCursor fs c, e ∈ fs := by
  intro e he
  rw [afterCursor] at he
  rcases hidx : findCursorIdx c fs with _ | i
  · rw [hidx] at he
    cases he
  · simp only [hidx] at he
    by_cases h : i + 1 < fs.length
    · rw [if_pos h] at he
      exact List.drop_subset _ _ he
    · rw [if_neg h] at he
      cases he

theorem pageBase_subset (fs : List Record) (opts : QueryOpts) :
    ∀ e ∈ pageBase fs opts, e ∈ fs := by
  intro e he
  rw [pageBase] at he
  by_cases h1 : opts.cursor ≠ ""
  · rw [if_pos h1] at he
    exact afterCursor_subset fs opts.cursor e he
  · rw [if_neg h1] at he
    by_cases h2 : 0 < opts.offset
    · rw [if_pos h2] at he
      by_cases h3 : (fs.length : Int) ≤ opts.offset
      · rw [if_pos h3] at he
        cases he
      · rw [if_neg h3] at he
        exact List.drop_subset _ _ he
    · rw [if_neg h2] at he
      exact he

theorem applyLimit_neg {base : List Record} {L : Int}
    (h : ¬ (0 < L ∧ L < (base.length : Int))) :
    applyLimit base L = (base, "") := by
  rw [applyLimit, if_neg h]

theorem applyLimit_pos_items {base : List Record} {L : Int}
    (h : 0 < L ∧ L < (base.length : Int)) :
    (applyLimit base L).1 = base.take L.toNat := by
  rw [applyLimit, if_pos h]

theorem getLast?_take_of_lt {α : Type} {l : List α} {n : Nat} (h0 : 0 < n)
    (hn : n < l.length) : (l.take n).getLast? = l[n - 1]? := by
  rw [List.getLast?_eq_getElem?, List.length_take]
  have hm : min n l.length = n := by omega
  rw [hm, List.getElem?_take, if_pos (by omega)]

theorem applyLimit_pos_nextCursor {base : List Record} {L : Int} {lastRec : Record}
    {c : String} (h : 0 < L ∧ L < (base.length : Int))
    (hlast : base[L.toNat - 1]? = some lastRec) (hid : idString lastRec = some c) :
    (applyLimit base L).2 = c := by
  rw [applyLimit, if_pos h]
  show (match (base.take L.toNat).getLast? with
    | some lastItem => (idString lastItem).getD ""
    | none => "") = c
  rw [getLast?_take_of_lt (by omega) (by omega), hlast]
  show (idString lastRec).getD "" = c
  rw [hid]
  rfl

theorem listQueryColl_items (coll : Collection) (opts : QueryOpts) :
    (listQueryColl coll opts).items =
      (applyLimit (pageBase (filteredRecords coll opts.filters) opts) opts.limit).1 := rfl

theorem listQueryColl_nextCursor (coll : Collection) (opts : QueryOpts) :
    (listQueryColl coll opts).nextCursor =
      (applyLimit (pageBase (filteredRecords coll opts.filters) opts) opts.limit).2 := rfl

theorem listQueryColl_totalCount (coll : Collection) (opts : QueryOpts) :
    (listQueryColl coll opts).totalCount = (filteredRecords coll opts.filters).length := rfl

/-! ### Exhaustive cursor traversal -/

theorem collectPages_eq_drop (coll : Collection) (hinv : CollInv coll)
    (fl : List (String × String)) (L : Int) :
    ∀ (fuel k : Nat) (opts : QueryOpts), opts.filters = fl → opts.limit = L →
      pageBase (filteredRecords coll fl) opts = (filteredRecords coll fl).drop k →
      (filteredRecords coll fl).length - k < fuel →
      collectPagesColl coll opts fuel = (filteredRecords coll fl).drop k := by
  intro fuel
  induction fuel with
  | zero =>
    intro k opts _ _ _ hlt
    omega
  | succ fuel ih =>
    intro k opts hf hL hbase hlt
    have hfiltered : filteredRecords coll opts.filters = filteredRecords coll fl := by rw [hf]
    have hbase' : pageBase (filteredRecords coll opts.filters) opts =
        (filteredRecords coll fl).drop k := by rw [hfiltered, hbase]
    by_cases hcond : 0 < opts.limit ∧
        opts.limit < (((filteredRecords coll fl).drop k).length : Int)
    · -- more records remain beyond this page: a next cursor is produced
      have hl1 : 1 ≤ opts.limit.toNat := by omega
      have hllen : opts.limit.toNat < (filteredRecords coll fl).length - k := by
        rw [List.length_drop] at hcond
        omega
      have hklt : k + opts.limit.toNat - 1 < (filteredRecords coll fl).length := by omega
      have hget : ((filteredRecords coll fl).drop k)[opts.limit.toNat - 1]? =
          (filteredRecords coll fl)[k + opts.limit.toNat - 1]? := by
        rw [List.getElem?_drop]
        congr 1
        omega
      obtain ⟨el, he⟩ : ∃ el,
          (filteredRecords coll fl)[k + opts.limit.toNat - 1]? = some el :=
        ⟨_, List.getElem?_eq_getElem hklt⟩
      obtain ⟨c, hc, hcne⟩ := filteredRecords_elem_id hinv
        (List.mem_iff_getElem?.mpr ⟨_, he⟩)
      have hnc : (listQueryColl coll opts).nextCursor = c := by
        rw [listQueryColl_nextCursor, hbase']
        exact applyLimit_pos_nextCursor hcond (hget.trans he) hc
      have hitems : (listQueryColl coll opts).items =
          ((filteredRecords coll fl).drop k).take opts.limit.toNat := by
        rw [listQueryColl_items, hbase']
        exact applyLimit_pos_items hcond
      rw [collectPagesColl, if_neg (by rw [hnc]; exact hcne), hnc, hitems]
      have hafter : afterCursor (filteredRecords coll fl) c =
          (filteredRecords coll fl).drop (k + opts.limit.toNat) := by
        rw [afterCursor_eq_drop (filteredRecords_map_idString_nodup hinv) he hc]
        congr 1
        omega
      have hrec := ih (k + opts.limit.toNat)
        ⟨opts.filters, opts.limit, opts.offset, c⟩ hf hL
        (by
          rw [pageBase_cursor_ne _ _ (by exact hcne)]
          exact hafter)
        (by omega)
      rw [hrec]
      rw [show (filteredRecords coll fl).drop (k + opts.limit.toNat) =
        (((filteredRecords coll fl).drop k).drop opts.limit.toNat) by rw [List.drop_drop]]
      exact List.take_append_drop _ _
    · -- final page: everything remaining is returned and no cursor is set
      have happly : applyLimit ((filteredRecords coll fl).drop k) opts.limit =
          ((filteredRecords coll fl).drop k, "") := applyLimit_neg hcond
      have hnc : (listQueryColl coll opts).nextCursor = "" := by
        rw [listQueryColl_nextCursor, hbase', happly]
      have hitems : (listQueryColl coll opts).items = (filteredRecords coll fl).drop k := by
        rw [listQueryColl_items, hbase', happly]
      rw [collectPagesColl, if_pos hnc, hitems]

/-! ### C1: limit truncation, nextCursor, and exhaustive traversal -/

/-- C1: under the data-model invariant, when `ListQuery` is given a positive
limit and more filtered records remain beyond the returned page, the page is
truncated to exactly the limit and `nextCursor` is the string ID of the last
returned item; otherwise `nextCursor` is empty and nothing is truncated; and
repeatedly calling `ListQuery` with the same filters and limit, feeding each
non-empty `nextCursor` back as the cursor starting from an empty cursor,
returns exactly the filtered record sequence in sorted-ID order — every
filtered record once, with no overlaps (its ID sequence is duplicate-free). -/
theorem listQuery_limit_and_cursor_traversal (st : Store) (ty : String) (coll : Collection)
    (opts : QueryOpts) (hty : List.lookup ty st.data = some coll) (hinv : CollInv coll) :
    listQuery st ty opts = Except.ok (listQueryColl coll opts) ∧
    ((0 < opts.limit ∧
        opts.limit < ((pageBase (filteredRecords coll opts.filters) opts).length : Int)) →
      (listQueryColl coll opts).items =
          (pageBase (filteredRecords coll opts.filters) opts).take opts.limit.toNat ∧
        (listQueryColl coll opts).items.length = opts.limit.toNat ∧
        (listQueryColl coll opts).nextCursor ≠ "" ∧
        ∃ lastRec, (listQueryColl coll opts).items.getLast? = some lastRec ∧
          idString lastRec = some (listQueryColl coll opts).nextCursor) ∧
    (¬ (0 < opts.limit ∧
        opts.limit < ((pageBase (filteredRecords coll opts.filters) opts).length : Int)) →
      (listQueryColl coll opts).items = pageBase (filteredRecords coll opts.filters) opts ∧
        (listQueryColl coll opts).nextCursor = "") ∧
    (opts.cursor = "" → opts.offset ≤ 0 → ∀ fuel,
      (filteredRecords coll opts.filters).length < fuel →
      collectPagesColl coll opts fuel = filteredRecords coll opts.filters) ∧
    ((filteredRecords coll opts.filters).map idString).Nodup := by
  refine ⟨?_, ?_, ?_, ?_, filteredRecords_map_idString_nodup hinv⟩
  · rw [listQuery, hty]
  · intro hcond
    have hlen : opts.limit.toNat <
        (pageBase (filteredRecords coll opts.filters) opts).length := by omega
    have hl1 : 1 ≤ opts.limit.toNat := by omega
    have hitems : (listQueryColl coll opts).items =
        (pageBase (filteredRecords coll opts.filters) opts).take opts.limit.toNat := by
      rw [listQueryColl_items]
      exact applyLimit_pos_items hcond
    have hidx : opts.limit.toNat - 1 <
        (pageBase (filteredRecords coll opts.filters) opts).length := by omega
    obtain ⟨lastRec, hget⟩ : ∃ e,
        (pageBase (filteredRecords coll opts.filters) opts)[opts.limit.toNat - 1]? = some e :=
      ⟨_, List.getElem?_eq_getElem hidx⟩
    obtain ⟨c, hc, hcne⟩ := filteredRecords_elem_id hinv
      (pageBase_subset _ opts _ (List.mem_iff_getElem?.mpr ⟨_, hget⟩))
    have hnc : (listQueryColl coll opts).nextCursor = c := by
      rw [listQueryColl_nextCursor]
      exact applyLimit_pos_nextCursor hcond hget hc
    refine ⟨hitems, ?_, ?_, ?_⟩
    · rw [hitems, List.length_take]
      omega
    · rw [hnc]
      exact hcne
    · refine ⟨lastRec, ?_, ?_⟩
      · rw [hitems, getLast?_take_of_lt (by omega) hlen]
        exact hget
      · rw [hnc]
        exact hc
  · intro hcond
    have happly := applyLimit_neg hcond
    constructor
    · rw [listQueryColl_items, happly]
    · rw [listQueryColl_nextCursor, happly]
  · intro hc ho fuel hfuel
    have := collectPages_eq_drop coll hinv opts.filters opts.limit fuel 0 opts rfl rfl
      (by rw [pageBase_start _ _ hc ho, List.drop_zero])
      (by omega)
    rw [this, List.drop_zero]

/-- Witness for C1: a three-record collection paged with limit 2 from an
empty cursor is traversed exhaustively. -/
theorem listQuery_limit_and_cursor_traversal_witness :
    collectPagesColl
      [("1", [("id", Value.vStr "1")]), ("2", [("id", Value.vStr "2")]),
        ("3", [("id", Value.vStr "3")])] ⟨[], 2, 0, ""⟩ 4 =
      filteredRecords
        [("1", [("id", Value.vStr "1")]), ("2", [("id", Value.vStr "2")]),
          ("3", [("id", Value.vStr "3")])] [] :=
  (listQuery_limit_and_cursor_traversal
    ⟨[("users",
        [("1", [("id", Value.vStr "1")]), ("2", [("id", Value.vStr "2")]),
          ("3", [("id", Value.vStr "3")])])], [("users", 3)]⟩ "users"
    [("1", [("id", Value.vStr "1")]), ("2", [("id", Value.vStr "2")]),
      ("3", [("id", Value.vStr "3")])]
    ⟨[], 2, 0, ""⟩ rfl (by decide)).2.2.2.1 rfl (by decide) 4 (by decide)

/-! ### C2: deterministic ordering and totalCount -/

/-- C2: `ListQuery` is deterministic regardless of map iteration order (its
result is invariant under permutation of the underlying collection), its
candidate sequence is all records ordered by lexicographic sort of their IDs
(the sorted ID enumeration is a sorted permutation of the collection's keys,
and the filtered sequence's IDs are a sorted, duplicate-free list), and the
returned `totalCount` equals the number of records matching the filter set
before any cursor, offset, or limit is applied. -/
theorem listQuery_deterministic_order_and_totalCount :
    (∀ (coll₁ coll₂ : Collection) (opts : QueryOpts), (coll₁.map Prod.fst).Nodup →
      coll₁.Perm coll₂ → listQueryColl coll₁ opts = listQueryColl coll₂ opts) ∧
    (∀ (st : Store) (ty : String) (coll : Collection) (opts : QueryOpts),
      List.lookup ty st.data = some coll → (coll.map Prod.fst).Nodup →
      listQuery st ty opts = Except.ok (listQueryColl coll opts) ∧
      (listQueryColl coll opts).totalCount =
        coll.countP fun p => matchesFilters p.2 opts.filters) ∧
    (∀ coll : Collection, List.Sorted sLe (sortedIDs coll) ∧
      (sortedIDs coll).Perm (coll.map Prod.fst)) ∧
    (∀ (coll : Collection) (fl : List (String × String)), CollInv coll →
      ∃ ks, List.Sorted sLe ks ∧ ks.Nodup ∧
        (filteredRecords coll fl).map idString = ks.map some) := by
  refine ⟨?_, ?_, ?_, ?_⟩
  · intro coll₁ coll₂ opts hn hp
    unfold listQueryColl
    rw [filteredRecords_eq_of_perm hn hp opts.filters]
  · intro st ty coll opts hty hn
    constructor
    · rw [listQuery, hty]
    · rw [listQueryColl_totalCount]
      exact filteredRecords_length_countP coll opts.filters hn
  · intro coll
    exact ⟨sortedIDs_sorted coll, sortedIDs_perm coll⟩
  · intro coll fl hinv
    exact ⟨filteredIDs coll fl, (filteredIDs_sorted_nodup coll fl hinv.1).1,
      (filteredIDs_sorted_nodup coll fl hinv.1).2, map_idString_filteredRecords hinv.2.1⟩

/-- Witness for C2: concrete totalCount over a two-record collection with a
one-key filter, counted before pagination. -/
theorem listQuery_deterministic_order_and_totalCount_witness :
    (listQueryColl
      [("1", [("id", Value.vStr "1"), ("name", Value.vStr "Alice")]),
        ("2", [("id", Value.vStr "2"), ("name", Value.vStr "Bob")])]
      ⟨[("name", "Alice")], 1, 0, ""⟩).totalCount =
    List.countP (fun p => matchesFilters p.2 [("name", "Alice")])
      [("1", [("id", Value.vStr "1"), ("name", Value.vStr "Alice")]),
        ("2", [("id", Value.vStr "2"), ("name", Value.vStr "Bob")])] :=
  (listQuery_deterministic_order_and_totalCount.2.1
    ⟨[("users",
        [("1", [("id", Value.vStr "1"), ("name", Value.vStr "Alice")]),
          ("2", [("id", Value.vStr "2"), ("name", Value.vStr "Bob")])])], [("users", 2)]⟩
    "users"
    [("1", [("id", Value.vStr "1"), ("name", Value.vStr "Alice")]),
      ("2", [("id", Value.vStr "2"), ("name", Value.vStr "Bob")])]
    ⟨[("name", "Alice")], 1, 0, ""⟩ rfl (by decide)).2

/-! ### C3: cursor and offset semantics of the result-set stage -/

/-- C3: on the filtered, sorted sequence, a non-empty cursor makes the
result set exactly the records strictly after the position of the record
whose ID equals the cursor; an unfound cursor, or one found at the last
position, yields an empty set; with an empty cursor a positive offset skips
that many records (emptying the set at or beyond the length); and a supplied
cursor takes precedence over any offset. -/
theorem pageBase_cursor_offset_semantics :
    (∀ (fs : List Record) (opts : QueryOpts) (j : Nat) (e : Record),
      (fs.map idString).Nodup → opts.cursor ≠ "" → fs[j]? = some e →
      idString e = some opts.cursor → pageBase fs opts = fs.drop (j + 1)) ∧
    (∀ (fs : List Record) (opts : QueryOpts), opts.cursor ≠ "" →
      (∀ e ∈ fs, idString e ≠ some opts.cursor) → pageBase fs opts = []) ∧
    (∀ (fs : List Record) (opts : QueryOpts) (j : Nat) (e : Record),
      (fs.map idString).Nodup → opts.cursor ≠ "" → fs[j]? = some e →
      idString e = some opts.cursor → j + 1 = fs.length → pageBase fs opts = []) ∧
    (∀ (fs : List Record) (opts : QueryOpts), opts.cursor = "" → 0 < opts.offset →
      ((fs.length : Int) ≤ opts.offset → pageBase fs opts = []) ∧
      (opts.offset < (fs.length : Int) → pageBase fs opts = fs.drop opts.offset.toNat)) ∧
    (∀ (fs : List Record) (fl : List (String × String)) (L o o' : Int) (c : String),
      c ≠ "" → pageBase fs ⟨fl, L, o, c⟩ = pageBase fs ⟨fl, L, o', c⟩) := by
  refine ⟨?_, ?_, ?_, ?_, ?_⟩
  · intro fs opts j e hn hc hj he
    rw [pageBase_cursor_ne fs opts hc]
    exact afterCursor_eq_drop hn hj he
  · intro fs opts hc hnone
    rw [pageBase_cursor_ne fs opts hc]
    exact afterCursor_eq_nil hnone
  · intro fs opts j e hn hc hj he hlast
    rw [pageBase_cursor_ne fs opts hc, afterCursor_eq_drop hn hj he]
    exact List.drop_eq_nil_of_le (by omega)
  · intro fs opts hc ho
    constructor
    · intro hge
      rw [pageBase, if_neg (by simp [hc]), if_pos ho, if_pos hge]
    · intro hlt
      rw [pageBase, if_neg (by simp [hc]), if_pos ho, if_neg (by omega)]
  · intro fs fl L o o' c hc
    rw [pageBase_cursor_ne _ _ hc, pageBase_cursor_ne _ _ hc]

/-- Witness for C3: a concrete two-record sequence with cursor "1" yields
exactly the records strictly after position 0, regardless of the offset. -/
theorem pageBase_cursor_offset_semantics_witness :
    pageBase [[("id", Value.vStr "1")], [("id", Value.vStr "2")]] ⟨[], 0, 7, "1"⟩ =
      List.drop 1 [[("id", Value.vStr "1")], [("id", Value.vStr "2")]] :=
  pageBase_cursor_offset_semantics.1
    [[("id", Value.vStr "1")], [("id", Value.vStr "2")]] ⟨[], 0, 7, "1"⟩ 0
    [("id", Value.vStr "1")] (by decide) (by decide) rfl rfl

/-! ### C8 continued -/

/-- C8 counterexample: a concrete schema whose only entity is `users` but
whose custom route targets `tweets` passes startup validation, registers
its route, and produces `EntityTypeNotFound` when the route is exercised at
request time — contradicting startup-time detection. -/
theorem custom_route_bad_entity_counterexample :
    validateSchema ⟨"", [("users", ⟨[("id", ⟨"string", true⟩), ("name", ⟨"string", true⟩)]⟩)],
      [⟨"GET", "/users/:userId/tweets", "tweets", [("userId", "author_id")]⟩]⟩ = true ∧
    registerRoutes
      ⟨"", [("users", ⟨[("id", ⟨"string", true⟩), ("name", ⟨"string", true⟩)]⟩)],
        [⟨"GET", "/users/:userId/tweets", "tweets", [("userId", "author_id")]⟩]⟩
      (buildRouteMap
        ⟨"", [("users", ⟨[("id", ⟨"string", true⟩), ("name", ⟨"string", true⟩)]⟩)],
          [⟨"GET", "/users/:userId/tweets", "tweets", [("userId", "author_id")]⟩]⟩) =
      ["/users", "/users/", "GET /users/{userId}/tweets", "/"] ∧
    customRouteQuery
      (initStore ⟨"", [("users", ⟨[("id", ⟨"string", true⟩), ("name", ⟨"string", true⟩)]⟩)],
        [⟨"GET", "/users/:userId/tweets", "tweets", [("userId", "author_id")]⟩]⟩)
      ⟨"GET", "/users/:userId/tweets", "tweets", [("userId", "author_id")]⟩ [("userId", "1")] =
      Except.error StoreErr.entityTypeNotFound :=
  ⟨by decide, by decide, rfl⟩

end ApeMy
